import Mathlib

/-!
# Verification of the Rideshare-Bot matching and assignment core

A shallow embedding of the ride-matching backend of `game-ale/Rideshare-Bot`.
The database layer `src/database/db.py` (driver registry, ride store, the
assignment transaction, the ride lifecycle operations), the matching engine
`src/services/matching.py` and the geospatial utility
`src/services/location.py` are translated into pure Lean functions on an
explicit store state.  SQL rows become list entries, `scalar_one_or_none`
becomes a `find?` / `filter` over those lists, and the atomic transaction of
`assign_driver_to_ride` becomes a pure function whose early returns leave the
state untouched.  Python `float` arithmetic of the rating and matching code is
modelled exactly over `ℚ`; the trigonometric haversine distance is modelled
over `ℝ`.
-/

/-- `RideStatus` from `src/enums.py`: lifecycle states of a ride. -/
inductive RideStatus where
  | requested
  | assigned
  | ongoing
  | completed
  | cancelled
deriving DecidableEq, Repr

/-- `VehicleType` from `src/enums.py`. -/
inductive VehicleType where
  | car
  | bike
  | van
  | motorcycle
deriving DecidableEq, Repr

/-- A ride status is non-terminal ("active") when it is REQUESTED, ASSIGNED or
ONGOING; this is the status filter used by `get_active_ride_for_user` in
`src/database/db.py`. -/
def RideStatus.isActive : RideStatus → Bool
  | .requested => true
  | .assigned => true
  | .ongoing => true
  | .completed => false
  | .cancelled => false

/-- The `drivers` table row from `src/database/models.py`.  `rating` and the
coordinates are Python floats, modelled exactly over `ℚ`. -/
structure Driver where
  id : Nat
  name : String
  vehicle_type : VehicleType
  available : Bool
  latitude : ℚ
  longitude : ℚ
  rating : ℚ
  total_rides : Nat
deriving DecidableEq, Repr

/-- The `rides` table row from `src/database/models.py`.  `driver_id`,
`distance`, `rating` and `completed_at` are nullable columns, modelled as
`Option`; timestamps are abstract ticks (`Nat`). -/
structure Ride where
  id : Nat
  rider_id : Nat
  driver_id : Option Nat
  status : RideStatus
  rider_lat : ℚ
  rider_lng : ℚ
  distance : Option ℚ
  rating : Option Nat
  completed_at : Option Nat
deriving DecidableEq, Repr

/-- The append-only `ride_history` table row from `src/database/models.py`
(the timestamp column is dropped: only the append order matters here). -/
structure RideHistoryEntry where
  ride_id : Nat
  status : RideStatus
deriving DecidableEq, Repr

/-- The database state: the tables owned by the driver registry and the ride
store, plus the autoincrement counter backing `rides.id`.  The `riders` table
carries no field any claim depends on and is omitted. -/
structure DB where
  drivers : List Driver
  rides : List Ride
  history : List RideHistoryEntry
  next_ride_id : Nat
deriving DecidableEq, Repr

/-- The empty store: no rows, autoincrement starts at 1. -/
def DB.empty : DB := ⟨[], [], [], 1⟩

/-- `SELECT ... FROM drivers WHERE id = user_id` with `scalar_one_or_none`. -/
def DB.findDriver (s : DB) (user_id : Nat) : Option Driver :=
  s.drivers.find? (fun d => d.id == user_id)

/-- `SELECT ... FROM rides WHERE id = ride_id` with `scalar_one_or_none`. -/
def DB.findRide (s : DB) (ride_id : Nat) : Option Ride :=
  s.rides.find? (fun r => r.id == ride_id)

/-- In-place mutation of the driver row with the given id (the ORM mutates the
selected row; with unique primary keys at most one row matches). -/
def DB.setDriver (s : DB) (user_id : Nat) (f : Driver → Driver) : DB :=
  { s with drivers := s.drivers.map (fun d => if d.id == user_id then f d else d) }

/-- In-place mutation of the ride row with the given id. -/
def DB.setRide (s : DB) (ride_id : Nat) (f : Ride → Ride) : DB :=
  { s with rides := s.rides.map (fun r => if r.id == ride_id then f r else r) }

/-- Python's `round(x, 2)` on the exact value: round to 2 decimal places.
(Python breaks exact halfway cases to even; no operation verified here ever
produces an exact halfway case, so `round` is used.) -/
def round2 (x : ℚ) : ℚ := (round (x * 100) : ℤ) / 100

/-- `create_driver` from `src/database/db.py`: upsert.  An existing driver has
its profile fields updated in place (availability, rating and ride count are
untouched); a new driver starts unavailable with the default rating 5.0 and
zero rides (column defaults in `src/database/models.py`). -/
def create_driver (s : DB) (user_id : Nat) (name : String) (vt : VehicleType)
    (lat lng : ℚ) : DB :=
  match s.findDriver user_id with
  | some _ =>
      s.setDriver user_id (fun d =>
        { d with name := name, vehicle_type := vt, latitude := lat, longitude := lng })
  | none =>
      { s with drivers := s.drivers ++
          [{ id := user_id, name := name, vehicle_type := vt, available := false,
             latitude := lat, longitude := lng, rating := 5, total_rides := 0 }] }

/-- `set_driver_availability` from `src/database/db.py`: returns false if the
driver does not exist, otherwise sets the flag unconditionally. -/
def set_driver_availability (s : DB) (user_id : Nat) (available : Bool) : DB × Bool :=
  match s.findDriver user_id with
  | none => (s, false)
  | some _ => (s.setDriver user_id (fun d => { d with available := available }), true)

/-- `get_available_drivers` from `src/database/db.py`:
`SELECT ... WHERE available = true`. -/
def get_available_drivers (s : DB) : List Driver :=
  s.drivers.filter (fun d => d.available)

/-- The rating fold of `update_driver_rating` in `src/database/db.py`:
`new_avg = (rating * total_rides + new_rating) / (total_rides + 1)`, rounded
to 2 decimals, and the ride counter incremented. -/
def recordRating (d : Driver) (new_rating : Nat) : Driver :=
  { d with
    rating := round2 ((d.rating * d.total_rides + new_rating) / (d.total_rides + 1)),
    total_rides := d.total_rides + 1 }

/-- `update_driver_rating` from `src/database/db.py`: no-op when the driver is
absent. -/
def update_driver_rating (s : DB) (driver_id : Nat) (new_rating : Nat) : DB :=
  match s.findDriver driver_id with
  | none => s
  | some _ => s.setDriver driver_id (fun d => recordRating d new_rating)

/-- `create_ride` from `src/database/db.py`: inserts a REQUESTED ride with no
driver and appends the initial REQUESTED history entry.  Returns the new ride
id (the autoincremented primary key). -/
def create_ride (s : DB) (rider_id : Nat) (rider_lat rider_lng : ℚ) : DB × Nat :=
  let rid := s.next_ride_id
  ({ s with
      rides := s.rides ++
        [{ id := rid, rider_id := rider_id, driver_id := none, status := .requested,
           rider_lat := rider_lat, rider_lng := rider_lng, distance := none,
           rating := none, completed_at := none }],
      history := s.history ++ [{ ride_id := rid, status := .requested }],
      next_ride_id := rid + 1 }, rid)

/-- `assign_driver_to_ride` from `src/database/db.py`, the assignment
transaction.  The driver row is re-read under `id = driver_id AND
available = true` (the locked re-validation); the ride is re-read and must
still be REQUESTED; otherwise the transaction aborts with no change.  On
success the ride gets the driver, the distance and status ASSIGNED, the driver
becomes unavailable, and one ASSIGNED history entry is appended. -/
def assign_driver_to_ride (s : DB) (ride_id driver_id : Nat) (distance : ℚ) : DB × Bool :=
  match s.drivers.find? (fun d => d.id == driver_id && d.available) with
  | none => (s, false)
  | some _ =>
    match s.findRide ride_id with
    | none => (s, false)
    | some ride =>
      if ride.status = .requested then
        let s1 := s.setRide ride_id (fun r =>
          { r with driver_id := some driver_id, distance := some distance,
                   status := .assigned })
        let s2 := s1.setDriver driver_id (fun d => { d with available := false })
        ({ s2 with history := s2.history ++ [{ ride_id := ride_id, status := .assigned }] },
         true)
      else (s, false)

/-- `update_ride_status` from `src/database/db.py`: fails only when the ride
is absent; otherwise sets the new status unconditionally, and when the new
status is COMPLETED or CANCELLED stamps `completed_at` and sets the attached
driver (if any; a mutation of an absent driver row is the identity, matching
the code's existence check) back to available.  One history entry with the new
status is appended.  `now` stands for `datetime.utcnow()`. -/
def update_ride_status (s : DB) (ride_id : Nat) (new_status : RideStatus) (now : Nat) :
    DB × Bool :=
  match s.findRide ride_id with
  | none => (s, false)
  | some ride =>
    let s1 := s.setRide ride_id (fun r => { r with status := new_status })
    let s2 :=
      if new_status = .completed ∨ new_status = .cancelled then
        let s1' := s1.setRide ride_id (fun r => { r with completed_at := some now })
        match ride.driver_id with
        | some did => s1'.setDriver did (fun d => { d with available := true })
        | none => s1'
      else s1
    ({ s2 with history := s2.history ++ [{ ride_id := ride_id, status := new_status }] },
     true)

/-- `add_ride_rating` from `src/database/db.py`: fails unless the ride exists
with status exactly COMPLETED; otherwise stores the stars on the ride and, if
a driver is attached, forwards to `update_driver_rating`. -/
def add_ride_rating (s : DB) (ride_id : Nat) (rating : Nat) : DB × Bool :=
  match s.findRide ride_id with
  | none => (s, false)
  | some ride =>
    if ride.status = .completed then
      let s1 := s.setRide ride_id (fun r => { r with rating := some rating })
      match ride.driver_id with
      | some did => (update_driver_rating s1 did rating, true)
      | none => (s1, true)
    else (s, false)

/-- `cancel_ride` from `src/database/db.py`: sugar for a CANCELLED transition. -/
def cancel_ride (s : DB) (ride_id : Nat) (now : Nat) : DB × Bool :=
  update_ride_status s ride_id .cancelled now

/-- `get_active_ride_for_user` from `src/database/db.py`: the active-ride query
(`rider_id = user OR driver_id = user`, status in the three active states) read
through `scalar_one_or_none`, which returns the row when there is exactly one,
`None` when there is none, and raises `MultipleResultsFound` (modelled as
`Except.error`) when more than one row matches. -/
def get_active_ride_for_user (s : DB) (user_id : Nat) : Except Unit (Option Ride) :=
  match s.rides.filter (fun r =>
      (r.rider_id == user_id || r.driver_id == some user_id) && r.status.isActive) with
  | [] => .ok none
  | [r] => .ok (some r)
  | _ => .error ()

/-- `MAX_SEARCH_DISTANCE_KM` from `src/config.py`. -/
def MAX_SEARCH_DISTANCE_KM : ℚ := 10

/-- `find_nearest_driver` from `src/services/matching.py`, parametric in the
distance computation (`calculate_distance` over Python floats; the selection
logic only compares the computed values, so it is embedded over `ℚ`):
fetch the available drivers, pair each with its distance, keep those within
`MAX_SEARCH_DISTANCE_KM`, stable-sort by distance ascending (Python's
`list.sort` is stable; modelled by `List.mergeSort`, which is stable) and
return the first, or `none` when no candidate remains. -/
def find_nearest_driver (distf : ℚ → ℚ → ℚ → ℚ → ℚ) (s : DB)
    (rider_lat rider_lng : ℚ) : Option (Driver × ℚ) :=
  let drivers := get_available_drivers s
  if drivers.isEmpty then none
  else
    let driver_distances :=
      (drivers.map (fun d => (d, distf rider_lat rider_lng d.latitude d.longitude))).filter
        (fun x => x.2 ≤ MAX_SEARCH_DISTANCE_KM)
    if driver_distances.isEmpty then none
    else (driver_distances.mergeSort (fun a b => a.2 ≤ b.2)).head?

/-- Modelled from the spec's tie-break wording ("return the minimum-distance
driver; ties broken by stable input order (first encountered wins)"): the
first candidate in input order whose distance is minimal.  Compared against
`find_nearest_driver`, which is translated from the source. -/
def first_closest : List (Driver × ℚ) → Option (Driver × ℚ)
  | [] => none
  | x :: xs =>
    match first_closest xs with
    | none => some x
    | some y => if x.2 ≤ y.2 then some x else some y

/-- Python's `round(x, 2)` over the reals, for the haversine distance. -/
noncomputable def round2_real (x : ℝ) : ℝ := (round (x * 100) : ℤ) / 100

/-- `math.atan2` on the reals (standard piecewise definition). -/
noncomputable def atan2 (y x : ℝ) : ℝ :=
  if 0 < x then Real.arctan (y / x)
  else if x < 0 then
    (if 0 ≤ y then Real.arctan (y / x) + Real.pi else Real.arctan (y / x) - Real.pi)
  else
    (if 0 < y then Real.pi / 2 else if y < 0 then -(Real.pi / 2) else 0)

/-- `math.radians`: degrees to radians. -/
noncomputable def radians (x : ℝ) : ℝ := x * Real.pi / 180

/-- `calculate_distance` from `src/services/location.py`: the haversine
formula on a sphere of radius 6371 km, rounded to 2 decimal places, embedded
over `ℝ` (the Python code computes with floats). -/
noncomputable def calculate_distance (lat1 lng1 lat2 lng2 : ℝ) : ℝ :=
  let R : ℝ := 6371
  let lat1_rad := radians lat1
  let lng1_rad := radians lng1
  let lat2_rad := radians lat2
  let lng2_rad := radians lng2
  let dlat := lat2_rad - lat1_rad
  let dlng := lng2_rad - lng1_rad
  let a := Real.sin (dlat / 2) ^ 2 +
    Real.cos lat1_rad * Real.cos lat2_rad * Real.sin (dlng / 2) ^ 2
  let c := 2 * atan2 (Real.sqrt a) (Real.sqrt (1 - a))
  round2_real (R * c)

/-- The operations through which the handlers mutate the store: driver upsert
and availability toggle (`src/handlers/driver.py`), ride creation and
assignment (`src/handlers/rider.py`), status transition (accept / complete /
cancel), rating, and the driver-decline path of `decline_ride_callback` in
`src/handlers/driver.py`, which only calls
`set_driver_availability(user_id, True)`. -/
inductive Op where
  | createDriver (user_id : Nat) (name : String) (vt : VehicleType) (lat lng : ℚ)
  | setAvailability (user_id : Nat) (available : Bool)
  | createRide (rider_id : Nat) (lat lng : ℚ)
  | assignDriver (ride_id driver_id : Nat) (distance : ℚ)
  | transition (ride_id : Nat) (st : RideStatus) (now : Nat)
  | rateRide (ride_id : Nat) (stars : Nat)
  | decline (driver_id : Nat)
deriving DecidableEq, Repr

/-- One step of the system: the state effect of each operation. -/
def step (s : DB) : Op → DB
  | .createDriver u n vt lat lng => create_driver s u n vt lat lng
  | .setAvailability u b => (set_driver_availability s u b).1
  | .createRide u lat lng => (create_ride s u lat lng).1
  | .assignDriver rid did dist => (assign_driver_to_ride s rid did dist).1
  | .transition rid st now => (update_ride_status s rid st now).1
  | .rateRide rid v => (add_ride_rating s rid v).1
  | .decline did => (set_driver_availability s did true).1

/-- Replay a sequence of operations. -/
def run (s : DB) : List Op → DB
  | [] => s
  | op :: ops => run (step s op) ops

/-- Number of successful assignments recorded for ride `rid` along a replayed
operation sequence. -/
def assignSuccesses (s : DB) : List Op → Nat → Nat
  | [], _ => 0
  | op :: ops, rid =>
    (match op with
     | .assignDriver r d dist =>
       if r = rid ∧ (assign_driver_to_ride s r d dist).2 = true then 1 else 0
     | _ => 0) + assignSuccesses (step s op) ops rid

/-- A driver currently holds a non-terminal ride. -/
def driverBusy (s : DB) (d : Nat) : Bool :=
  s.rides.any (fun r => r.status.isActive && r.driver_id == some d)

/-- No driver is the attached driver of two distinct simultaneously
non-terminal rides. -/
def noDoubleBooking (s : DB) : Prop :=
  ∀ r1 ∈ s.rides, ∀ r2 ∈ s.rides,
    r1.status.isActive = true → r2.status.isActive = true → r1.id ≠ r2.id →
    r1.driver_id = none ∨ r1.driver_id ≠ r2.driver_id

/-- Every driver attached to an ASSIGNED or ONGOING ride is unavailable. -/
def busyDriverUnavailable (s : DB) : Prop :=
  ∀ r ∈ s.rides, (r.status = .assigned ∨ r.status = .ongoing) →
    ∀ d ∈ s.drivers, r.driver_id = some d.id → d.available = false

/-- Discipline restriction on an operation in a given state: availability is
only switched on for a driver with no non-terminal ride (the guard
`go_available` enforces in `src/handlers/driver.py`), transitions only move a
not-yet-terminal ride to ONGOING, COMPLETED or CANCELLED, and the unguarded
decline path is not used. -/
def disciplined (s : DB) : Op → Bool
  | .setAvailability u b => !b || !driverBusy s u
  | .transition rid st _ =>
    (st == .ongoing || st == .completed || st == .cancelled) &&
    (match s.findRide rid with
     | some r => r.status.isActive
     | none => true)
  | .decline _ => false
  | _ => true

/-- A whole sequence is disciplined when each operation is disciplined in the
state it executes in. -/
def disciplinedRun (s : DB) : List Op → Bool
  | [] => true
  | op :: ops => disciplined s op && disciplinedRun (step s op) ops

/-! ### Row-update helper lemmas -/

theorem List.find?_map_of_pred_inv {α : Type} (g : α → α) (p : α → Bool)
    (h : ∀ x, p (g x) = p x) (l : List α) :
    (l.map g).find? p = (l.find? p).map g := by
  rw [List.find?_map]
  have hpg : p ∘ g = p := funext h
  rw [hpg]

theorem findRide_setRide_self (s : DB) (rid : Nat) (f : Ride → Ride)
    (hf : ∀ r, (f r).id = r.id) :
    (s.setRide rid f).findRide rid = (s.findRide rid).map f := by
  show (s.rides.map fun r => if r.id == rid then f r else r).find? (fun r => r.id == rid)
      = (s.rides.find? (fun r => r.id == rid)).map f
  rw [List.find?_map_of_pred_inv]
  · cases hfind : s.rides.find? (fun r => r.id == rid) with
    | none => rfl
    | some r =>
      have hr := List.find?_some hfind
      simp only [beq_iff_eq] at hr
      simp [hr]
  · intro x
    by_cases hx : x.id = rid <;> simp [hx, hf]

theorem findRide_setRide_ne (s : DB) (rid rid' : Nat) (f : Ride → Ride)
    (hf : ∀ r, (f r).id = r.id) (hne : rid' ≠ rid) :
    (s.setRide rid f).findRide rid' = s.findRide rid' := by
  show (s.rides.map fun r => if r.id == rid then f r else r).find? (fun r => r.id == rid')
      = s.rides.find? (fun r => r.id == rid')
  rw [List.find?_map_of_pred_inv]
  · cases hfind : s.rides.find? (fun r => r.id == rid') with
    | none => rfl
    | some r =>
      have hr := List.find?_some hfind
      simp only [beq_iff_eq] at hr
      have hrr : ¬ r.id = rid := by omega
      simp [hrr]
  · intro x
    by_cases hx : x.id = rid <;> simp [hx, hf]

theorem findDriver_setDriver_self (s : DB) (did : Nat) (f : Driver → Driver)
    (hf : ∀ d, (f d).id = d.id) :
    (s.setDriver did f).findDriver did = (s.findDriver did).map f := by
  show (s.drivers.map fun d => if d.id == did then f d else d).find? (fun d => d.id == did)
      = (s.drivers.find? (fun d => d.id == did)).map f
  rw [List.find?_map_of_pred_inv]
  · cases hfind : s.drivers.find? (fun d => d.id == did) with
    | none => rfl
    | some d =>
      have hd := List.find?_some hfind
      simp only [beq_iff_eq] at hd
      simp [hd]
  · intro x
    by_cases hx : x.id = did <;> simp [hx, hf]

theorem findDriver_setDriver_ne (s : DB) (did did' : Nat) (f : Driver → Driver)
    (hf : ∀ d, (f d).id = d.id) (hne : did' ≠ did) :
    (s.setDriver did f).findDriver did' = s.findDriver did' := by
  show (s.drivers.map fun d => if d.id == did then f d else d).find? (fun d => d.id == did')
      = s.drivers.find? (fun d => d.id == did')
  rw [List.find?_map_of_pred_inv]
  · cases hfind : s.drivers.find? (fun d => d.id == did') with
    | none => rfl
    | some d =>
      have hd := List.find?_some hfind
      simp only [beq_iff_eq] at hd
      have hdd : ¬ d.id = did := by omega
      simp [hdd]
  · intro x
    by_cases hx : x.id = did <;> simp [hx, hf]

@[simp] theorem setRide_drivers (s : DB) (rid : Nat) (f : Ride → Ride) :
    (s.setRide rid f).drivers = s.drivers := rfl

@[simp] theorem setDriver_rides (s : DB) (did : Nat) (f : Driver → Driver) :
    (s.setDriver did f).rides = s.rides := rfl

@[simp] theorem setRide_history (s : DB) (rid : Nat) (f : Ride → Ride) :
    (s.setRide rid f).history = s.history := rfl

@[simp] theorem setDriver_history (s : DB) (did : Nat) (f : Driver → Driver) :
    (s.setDriver did f).history = s.history := rfl

@[simp] theorem setRide_next (s : DB) (rid : Nat) (f : Ride → Ride) :
    (s.setRide rid f).next_ride_id = s.next_ride_id := rfl

@[simp] theorem setDriver_next (s : DB) (did : Nat) (f : Driver → Driver) :
    (s.setDriver did f).next_ride_id = s.next_ride_id := rfl

theorem findDriver_setRide (s : DB) (rid : Nat) (f : Ride → Ride) (d : Nat) :
    (s.setRide rid f).findDriver d = s.findDriver d := rfl

theorem findRide_setDriver (s : DB) (did : Nat) (f : Driver → Driver) (r : Nat) :
    (s.setDriver did f).findRide r = s.findRide r := rfl

/-- Under unique driver ids, the assignment transaction's combined query
(`id = driver_id AND available = true`) finds a row exactly when the point
lookup finds an available row. -/
theorem find?_id_and_available (l : List Driver) (did : Nat)
    (h : (l.map (fun d => d.id)).Nodup) :
    l.find? (fun d => d.id == did && d.available)
      = match l.find? (fun d => d.id == did) with
        | some d => if d.available then some d else none
        | none => none := by
  induction l with
  | nil => rfl
  | cons x xs ih =>
    simp only [List.map_cons, List.nodup_cons] at h
    obtain ⟨hx, hxs⟩ := h
    by_cases hid : x.id == did
    · have hxid : x.id = did := by simpa using hid
      by_cases hav : x.available
      · simp [List.find?_cons, hid, hav]
      · have hnone : xs.find? (fun d => d.id == did && d.available) = none := by
          rw [List.find?_eq_none]
          intro y hy
          have : y.id ≠ x.id := by
            intro hc
            exact hx (hc ▸ List.mem_map_of_mem (fun d => d.id) hy)
          simp only [Bool.and_eq_true, beq_iff_eq, not_and]
          intro hyd
          exact absurd (hyd.trans hxid.symm) this
        simp [List.find?_cons, hid, hav, hnone]
    · simp only [List.find?_cons, hid, Bool.false_and, ih hxs]

/-- The primary-key constraint of the `drivers` table: ids are unique. -/
def driverIdsNodup (s : DB) : Prop := (s.drivers.map (fun d => d.id)).Nodup

/-- **C1.** `assign_driver_to_ride` returns false and leaves the store
unchanged whenever the driver does not exist or is not available, or the ride
does not exist or is not REQUESTED; otherwise it writes the driver reference,
the distance and status ASSIGNED to the ride, marks the driver unavailable,
appends exactly one ASSIGNED history entry, and returns true. -/
theorem assign_driver_to_ride_spec (s : DB) (rid did : Nat) (dist : ℚ)
    (hD : driverIdsNodup s) :
    (((∀ d, s.findDriver did = some d → d.available = false) ∨
      s.findRide rid = none ∨
      (∀ r, s.findRide rid = some r → r.status ≠ .requested)) →
      assign_driver_to_ride s rid did dist = (s, false)) ∧
    (∀ d r, s.findDriver did = some d → d.available = true →
      s.findRide rid = some r → r.status = .requested →
      (assign_driver_to_ride s rid did dist).2 = true ∧
      (assign_driver_to_ride s rid did dist).1.findRide rid =
        some { r with driver_id := some did, distance := some dist,
                      status := .assigned } ∧
      (assign_driver_to_ride s rid did dist).1.findDriver did =
        some { d with available := false } ∧
      (assign_driver_to_ride s rid did dist).1.history =
        s.history ++ [{ ride_id := rid, status := .assigned }]) := by
  have hq : s.drivers.find? (fun d => d.id == did && d.available)
      = match s.findDriver did with
        | some d => if d.available then some d else none
        | none => none :=
    find?_id_and_available s.drivers did hD
  constructor
  · intro hfail
    unfold assign_driver_to_ride
    rw [hq]
    cases hd : s.findDriver did with
    | none => rfl
    | some d =>
      by_cases hav : d.available = true
      · rcases hfail with h | h | h
        · exact absurd (h d hd) (by simp [hav])
        · simp only [hav, if_true]
          rw [h]
        · simp only [hav, if_true]
          cases hr : s.findRide rid with
          | none => rfl
          | some r =>
            have hst := h r hr
            simp [hst]
      · have hav' : d.available = false := by
          cases hdb : d.available
          · rfl
          · exact absurd hdb hav
        simp [hav']
  · intro d r hd hav hr hst
    unfold assign_driver_to_ride
    rw [hq, hd]
    simp only [hav, if_true, hr, hst, if_pos rfl]
    refine ⟨trivial, ?_, ?_, ?_⟩
    · show ((s.setRide rid fun r0 =>
          { r0 with driver_id := some did, distance := some dist,
                    status := .assigned }).setDriver did
            (fun d0 => { d0 with available := false })).findRide rid = _
      rw [findRide_setDriver, findRide_setRide_self]
      · rw [hr]
        rfl
      · intro r0
        rfl
    · show ((s.setRide rid fun r0 =>
          { r0 with driver_id := some did, distance := some dist,
                    status := .assigned }).setDriver did
            (fun d0 => { d0 with available := false })).findDriver did = _
      rw [findDriver_setDriver_self]
      · show ((s.findDriver did).map fun d0 => { d0 with available := false }) = _
        rw [hd]
        rfl
      · intro d0
        rfl
    · rfl

theorem update_ride_status_eq_of_found (s : DB) (rid : Nat) (st : RideStatus)
    (now : Nat) (r : Ride) (hr : s.findRide rid = some r) :
    update_ride_status s rid st now =
      (let s1 := s.setRide rid (fun r0 => { r0 with status := st })
       let s2 :=
         if st = .completed ∨ st = .cancelled then
           let s1' := s1.setRide rid (fun r0 => { r0 with completed_at := some now })
           match r.driver_id with
           | some did => s1'.setDriver did (fun d => { d with available := true })
           | none => s1'
         else s1
       ({ s2 with history := s2.history ++ [{ ride_id := rid, status := st }] },
        true)) := by
  unfold update_ride_status
  rw [hr]

/-- **C4.** `update_ride_status` fails exactly when the ride is absent (and
then changes nothing); otherwise it applies the new status unconditionally,
appends exactly one history entry with the new status, and exactly when the
new status is COMPLETED or CANCELLED it stamps the completion timestamp and
sets an attached driver's availability back to true, returning true. -/
theorem update_ride_status_spec (s : DB) (rid : Nat) (st : RideStatus) (now : Nat) :
    ((update_ride_status s rid st now).2 = false ↔ s.findRide rid = none) ∧
    (s.findRide rid = none → (update_ride_status s rid st now).1 = s) ∧
    (∀ r, s.findRide rid = some r →
      (update_ride_status s rid st now).2 = true ∧
      (update_ride_status s rid st now).1.findRide rid =
        some { r with status := st,
                      completed_at :=
                        if st = .completed ∨ st = .cancelled then some now
                        else r.completed_at } ∧
      (update_ride_status s rid st now).1.history =
        s.history ++ [{ ride_id := rid, status := st }] ∧
      (¬ (st = .completed ∨ st = .cancelled) →
        (update_ride_status s rid st now).1.drivers = s.drivers) ∧
      ((st = .completed ∨ st = .cancelled) → r.driver_id = none →
        (update_ride_status s rid st now).1.drivers = s.drivers) ∧
      ((st = .completed ∨ st = .cancelled) → ∀ did, r.driver_id = some did →
        ∀ d, s.findDriver did = some d →
          (update_ride_status s rid st now).1.findDriver did =
            some { d with available := true })) := by
  cases hr : s.findRide rid with
  | none =>
    have heq : update_ride_status s rid st now = (s, false) := by
      unfold update_ride_status
      rw [hr]
    refine ⟨?_, ?_, ?_⟩
    · rw [heq]
      simp
    · intro _
      rw [heq]
    · intro r hsome
      exact absurd hsome (by simp)
  | some r =>
    have heq := update_ride_status_eq_of_found s rid st now r hr
    refine ⟨?_, ?_, ?_⟩
    · rw [heq]
      simp
    · intro hnone
      exact absurd hnone (by simp)
    · intro r' hsome
      injection hsome with hrr
      subst hrr
      rw [heq]
      dsimp only
      by_cases hterm : st = .completed ∨ st = .cancelled
      · cases hdid : r.driver_id with
        | none =>
          rw [if_pos hterm, if_pos hterm]
          refine ⟨rfl, ?_, rfl, fun hc => absurd hterm hc, fun _ _ => rfl, ?_⟩
          · show ((s.setRide rid fun r0 => { r0 with status := st }).setRide rid
                (fun r0 => { r0 with completed_at := some now })).findRide rid = _
            rw [findRide_setRide_self _ _ _ (by intro x; rfl),
                findRide_setRide_self _ _ _ (by intro x; rfl), hr]
            simp [hdid]
          · intro _ did hdid'
            exact absurd hdid' (by simp)
        | some did =>
          rw [if_pos hterm, if_pos hterm]
          refine ⟨rfl, ?_, rfl, fun hc => absurd hterm hc, ?_, ?_⟩
          · show (((s.setRide rid fun r0 => { r0 with status := st }).setRide rid
                (fun r0 => { r0 with completed_at := some now })).setDriver did
                  (fun d => { d with available := true })).findRide rid = _
            rw [findRide_setDriver,
                findRide_setRide_self _ _ _ (by intro x; rfl),
                findRide_setRide_self _ _ _ (by intro x; rfl), hr]
            simp [hdid]
          · intro _ hnone
            exact absurd hnone (by simp)
          · intro _ did' hdid' d hd
            injection hdid' with hdd
            subst hdd
            show (((s.setRide rid fun r0 => { r0 with status := st }).setRide rid
                (fun r0 => { r0 with completed_at := some now })).setDriver did
                  (fun d0 => { d0 with available := true })).findDriver did = _
            rw [findDriver_setDriver_self _ _ _ (by intro x; rfl)]
            show ((s.findDriver did).map fun d0 => { d0 with available := true }) = _
            rw [hd]
            rfl
      · rw [if_neg hterm, if_neg hterm]
        refine ⟨rfl, ?_, rfl, fun _ => rfl, fun hc => absurd hc hterm,
                fun hc => absurd hc hterm⟩
        show (s.setRide rid fun r0 => { r0 with status := st }).findRide rid = _
        rw [findRide_setRide_self _ _ _ (by intro x; rfl), hr]
        rfl

/-- A concrete store: one available driver (id 1) and one REQUESTED ride (id 1). -/
def demoState : DB :=
  { drivers := [{ id := 1, name := "a", vehicle_type := .car, available := true,
                  latitude := 0, longitude := 0, rating := 5, total_rides := 0 }],
    rides := [{ id := 1, rider_id := 7, driver_id := none, status := .requested,
                rider_lat := 0, rider_lng := 0, distance := none, rating := none,
                completed_at := none }],
    history := [{ ride_id := 1, status := .requested }],
    next_ride_id := 2 }

theorem assign_driver_to_ride_spec_witness :
    (assign_driver_to_ride demoState 1 1 2).2 = true ∧
    (assign_driver_to_ride demoState 1 1 2).1.findDriver 1 =
      some { id := 1, name := "a", vehicle_type := .car, available := false,
             latitude := 0, longitude := 0, rating := 5, total_rides := 0 } := by
  have h := (assign_driver_to_ride_spec demoState 1 1 2 (by unfold driverIdsNodup; decide)).2
    { id := 1, name := "a", vehicle_type := .car, available := true,
      latitude := 0, longitude := 0, rating := 5, total_rides := 0 }
    { id := 1, rider_id := 7, driver_id := none, status := .requested,
      rider_lat := 0, rider_lng := 0, distance := none, rating := none,
      completed_at := none }
    rfl rfl rfl rfl
  exact ⟨h.1, h.2.2.1⟩

/-- A concrete store: one busy driver (id 1) attached to the ASSIGNED ride 1. -/
def demoAssigned : DB :=
  { drivers := [{ id := 1, name := "a", vehicle_type := .car, available := false,
                  latitude := 0, longitude := 0, rating := 5, total_rides := 0 }],
    rides := [{ id := 1, rider_id := 7, driver_id := some 1, status := .assigned,
                rider_lat := 0, rider_lng := 0, distance := some 2, rating := none,
                completed_at := none }],
    history := [{ ride_id := 1, status := .requested },
                { ride_id := 1, status := .assigned }],
    next_ride_id := 2 }

theorem update_ride_status_spec_witness :
    (update_ride_status demoAssigned 1 .completed 5).2 = true ∧
    (update_ride_status demoAssigned 1 .completed 5).1.findDriver 1 =
      some { id := 1, name := "a", vehicle_type := .car, available := true,
             latitude := 0, longitude := 0, rating := 5, total_rides := 0 } := by
  have h := (update_ride_status_spec demoAssigned 1 .completed 5).2.2
    { id := 1, rider_id := 7, driver_id := some 1, status := .assigned,
      rider_lat := 0, rider_lng := 0, distance := some 2, rating := none,
      completed_at := none }
    rfl
  refine ⟨h.1, ?_⟩
  exact h.2.2.2.2.2 (Or.inl rfl) 1 rfl
    { id := 1, name := "a", vehicle_type := .car, available := false,
      latitude := 0, longitude := 0, rating := 5, total_rides := 0 }
    rfl

/-! ### Rating helper lemmas -/

theorem findRide_update_driver_rating (s : DB) (did v rid : Nat) :
    (update_driver_rating s did v).findRide rid = s.findRide rid := by
  unfold update_driver_rating
  cases s.findDriver did <;> rfl

theorem findDriver_update_driver_rating (s : DB) (did v : Nat) (d : Driver)
    (hd : s.findDriver did = some d) :
    (update_driver_rating s did v).findDriver did = some (recordRating d v) := by
  unfold update_driver_rating
  rw [hd, findDriver_setDriver_self _ _ _ (by intro x; rfl), hd]
  rfl

theorem add_ride_rating_found_completed (s : DB) (rid v : Nat) (r : Ride)
    (hr : s.findRide rid = some r) (hst : r.status = .completed) :
    add_ride_rating s rid v =
      ((match r.driver_id with
        | some did =>
          update_driver_rating (s.setRide rid fun r0 => { r0 with rating := some v }) did v
        | none => s.setRide rid (fun r0 => { r0 with rating := some v })), true) := by
  unfold add_ride_rating
  rw [hr]
  dsimp only
  rw [if_pos hst]
  cases r.driver_id <;> rfl

theorem add_ride_rating_ret (s : DB) (rid v : Nat) (r : Ride)
    (hr : s.findRide rid = some r) (hst : r.status = .completed) :
    (add_ride_rating s rid v).2 = true := by
  rw [add_ride_rating_found_completed s rid v r hr hst]

theorem add_ride_rating_findRide (s : DB) (rid v : Nat) (r : Ride)
    (hr : s.findRide rid = some r) (hst : r.status = .completed) :
    (add_ride_rating s rid v).1.findRide rid = some { r with rating := some v } := by
  rw [add_ride_rating_found_completed s rid v r hr hst]
  cases hdid : r.driver_id with
  | none =>
    show (s.setRide rid fun r0 => { r0 with rating := some v }).findRide rid = _
    rw [findRide_setRide_self _ _ _ (by intro x; rfl), hr]
    simp [hdid]
  | some did =>
    show (update_driver_rating
        (s.setRide rid fun r0 => { r0 with rating := some v }) did v).findRide rid = _
    rw [findRide_update_driver_rating,
        findRide_setRide_self _ _ _ (by intro x; rfl), hr]
    simp [hdid]

theorem add_ride_rating_findDriver (s : DB) (rid v did : Nat) (r : Ride) (d : Driver)
    (hr : s.findRide rid = some r) (hst : r.status = .completed)
    (hdid : r.driver_id = some did) (hd : s.findDriver did = some d) :
    (add_ride_rating s rid v).1.findDriver did = some (recordRating d v) := by
  rw [add_ride_rating_found_completed s rid v r hr hst, hdid]
  exact findDriver_update_driver_rating _ did v d hd

theorem add_ride_rating_drivers_of_no_driver (s : DB) (rid v : Nat) (r : Ride)
    (hr : s.findRide rid = some r) (hst : r.status = .completed)
    (hdid : r.driver_id = none) :
    (add_ride_rating s rid v).1.drivers = s.drivers := by
  rw [add_ride_rating_found_completed s rid v r hr hst, hdid]
  rfl

/-- **C8.** `add_ride_rating` fails and changes nothing unless the ride exists
with status exactly COMPLETED; on success it stores the stars on the ride and,
for an attached driver, recomputes the running average as
`(oldAvg * oldCount + stars) / (oldCount + 1)` in exact arithmetic, rounds it
to 2 decimal places and increments the driver's ride count by one. -/
theorem add_ride_rating_spec (s : DB) (rid v : Nat) :
    (s.findRide rid = none → add_ride_rating s rid v = (s, false)) ∧
    (∀ r, s.findRide rid = some r → r.status ≠ .completed →
      add_ride_rating s rid v = (s, false)) ∧
    (∀ r, s.findRide rid = some r → r.status = .completed →
      (add_ride_rating s rid v).2 = true ∧
      (add_ride_rating s rid v).1.findRide rid = some { r with rating := some v } ∧
      (r.driver_id = none → (add_ride_rating s rid v).1.drivers = s.drivers) ∧
      (∀ did, r.driver_id = some did → ∀ d, s.findDriver did = some d →
        (add_ride_rating s rid v).1.findDriver did =
          some { d with
                 rating :=
                   round2 ((d.rating * d.total_rides + v) / (d.total_rides + 1)),
                 total_rides := d.total_rides + 1 })) := by
  refine ⟨?_, ?_, ?_⟩
  · intro h
    unfold add_ride_rating
    rw [h]
  · intro r hr hst
    unfold add_ride_rating
    rw [hr]
    dsimp only
    rw [if_neg hst]
  · intro r hr hst
    refine ⟨add_ride_rating_ret s rid v r hr hst,
            add_ride_rating_findRide s rid v r hr hst,
            fun hdid => add_ride_rating_drivers_of_no_driver s rid v r hr hst hdid,
            fun did hdid d hd => add_ride_rating_findDriver s rid v did r d hr hst hdid hd⟩

/-- **C9.** Rating is not once-only: on a COMPLETED ride that already carries
a rating, `add_ride_rating` succeeds again, overwrites the stored rating, and
folds the new value into the attached driver's average, incrementing the
driver's total ride count on each repeated call. -/
theorem add_ride_rating_repeatable (s : DB) (rid v1 v2 : Nat) :
    ∀ r, s.findRide rid = some r → r.status = .completed → r.rating.isSome = true →
    ∀ did, r.driver_id = some did → ∀ d, s.findDriver did = some d →
      (add_ride_rating s rid v1).2 = true ∧
      (add_ride_rating (add_ride_rating s rid v1).1 rid v2).2 = true ∧
      (add_ride_rating (add_ride_rating s rid v1).1 rid v2).1.findRide rid =
        some { r with rating := some v2 } ∧
      (add_ride_rating (add_ride_rating s rid v1).1 rid v2).1.findDriver did =
        some (recordRating (recordRating d v1) v2) ∧
      (recordRating (recordRating d v1) v2).total_rides = d.total_rides + 2 := by
  intro r hr hst _ did hdid d hd
  have h1ride : (add_ride_rating s rid v1).1.findRide rid =
      some { r with rating := some v1 } :=
    add_ride_rating_findRide s rid v1 r hr hst
  have h1drv : (add_ride_rating s rid v1).1.findDriver did =
      some (recordRating d v1) :=
    add_ride_rating_findDriver s rid v1 did r d hr hst hdid hd
  have hst1 : ({ r with rating := some v1 } : Ride).status = .completed := hst
  have hdid1 : ({ r with rating := some v1 } : Ride).driver_id = some did := hdid
  refine ⟨add_ride_rating_ret s rid v1 r hr hst, ?_, ?_, ?_, rfl⟩
  · exact add_ride_rating_ret _ rid v2 _ h1ride hst1
  · have h2 := add_ride_rating_findRide _ rid v2 _ h1ride hst1
    exact h2
  · exact add_ride_rating_findDriver _ rid v2 did _ _ h1ride hst1 hdid1 h1drv

/-- A concrete store matching the spec's rating example: a driver with rating
5.0 and 0 rides, attached to a COMPLETED ride. -/
def demoCompleted : DB :=
  { drivers := [{ id := 1, name := "a", vehicle_type := .car, available := true,
                  latitude := 0, longitude := 0, rating := 5, total_rides := 0 }],
    rides := [{ id := 1, rider_id := 7, driver_id := some 1, status := .completed,
                rider_lat := 0, rider_lng := 0, distance := some 2, rating := none,
                completed_at := some 9 }],
    history := [{ ride_id := 1, status := .requested }],
    next_ride_id := 2 }

theorem add_ride_rating_spec_witness :
    (add_ride_rating demoCompleted 1 4).2 = true ∧
    (add_ride_rating demoCompleted 1 4).1.findDriver 1 =
      some { id := 1, name := "a", vehicle_type := .car, available := true,
             latitude := 0, longitude := 0, rating := 4, total_rides := 1 } := by
  have h := (add_ride_rating_spec demoCompleted 1 4).2.2
    { id := 1, rider_id := 7, driver_id := some 1, status := .completed,
      rider_lat := 0, rider_lng := 0, distance := some 2, rating := none,
      completed_at := some 9 } rfl rfl
  have hd := h.2.2.2 1 rfl
    { id := 1, name := "a", vehicle_type := .car, available := true,
      latitude := 0, longitude := 0, rating := 5, total_rides := 0 } rfl
  refine ⟨h.1, ?_⟩
  rw [hd]
  norm_num [round2]

/-- A concrete store with an already-rated COMPLETED ride: driver rating 4.0
after 1 ride, ride rating already 4. -/
def demoRated : DB :=
  { drivers := [{ id := 1, name := "a", vehicle_type := .car, available := true,
                  latitude := 0, longitude := 0, rating := 4, total_rides := 1 }],
    rides := [{ id := 1, rider_id := 7, driver_id := some 1, status := .completed,
                rider_lat := 0, rider_lng := 0, distance := some 2, rating := some 4,
                completed_at := some 9 }],
    history := [{ ride_id := 1, status := .requested }],
    next_ride_id := 2 }

theorem add_ride_rating_repeatable_witness :
    (add_ride_rating demoRated 1 4).2 = true ∧
    (add_ride_rating (add_ride_rating demoRated 1 4).1 1 1).2 = true ∧
    (add_ride_rating (add_ride_rating demoRated 1 4).1 1 1).1.findDriver 1 =
      some { id := 1, name := "a", vehicle_type := .car, available := true,
             latitude := 0, longitude := 0, rating := 3, total_rides := 3 } := by
  have h := add_ride_rating_repeatable demoRated 1 4 1
    { id := 1, rider_id := 7, driver_id := some 1, status := .completed,
      rider_lat := 0, rider_lng := 0, distance := some 2, rating := some 4,
      completed_at := some 9 } rfl rfl rfl 1 rfl
    { id := 1, name := "a", vehicle_type := .car, available := true,
      latitude := 0, longitude := 0, rating := 4, total_rides := 1 } rfl
  refine ⟨h.1, h.2.1, ?_⟩
  rw [h.2.2.2.1]
  norm_num [recordRating, round2]

/-- **C10.** `create_ride` performs no active-ride check, so two simultaneously
active rides for one rider are reachable at the core layer; on any store where
a user has more than one active ride, `get_active_ride_for_user` raises
(`scalar_one_or_none` finds multiple rows) instead of returning a ride. -/
theorem get_active_ride_for_user_conflict :
    (∀ s uid, 2 ≤ (s.rides.filter (fun r =>
        (r.rider_id == uid || r.driver_id == some uid) && r.status.isActive)).length →
      get_active_ride_for_user s uid = .error ()) ∧
    get_active_ride_for_user
      (run DB.empty [.createRide 7 0 0, .createRide 7 0 0]) 7 = .error () := by
  constructor
  · intro s uid h
    unfold get_active_ride_for_user
    cases hl : s.rides.filter (fun r =>
        (r.rider_id == uid || r.driver_id == some uid) && r.status.isActive) with
    | nil =>
      rw [hl] at h
      simp at h
    | cons a t =>
      cases t with
      | nil =>
        rw [hl] at h
        simp at h
      | cons b t2 => rfl
  · rfl

theorem get_active_ride_for_user_conflict_witness :
    get_active_ride_for_user
      (run DB.empty [.createRide 8 0 0, .createRide 8 0 0, .createRide 8 0 0]) 8 =
      .error () :=
  get_active_ride_for_user_conflict.1
    (run DB.empty [.createRide 8 0 0, .createRide 8 0 0, .createRide 8 0 0]) 8
    (by decide)

/-- The operation trace exhibiting the double free of **C5**: ride 1 is
completed (driver 1 freed once), driver 1 is then assigned to ride 2 and is
busy again; a second COMPLETED transition on the already-terminal ride 1 will
free driver 1 a second time. -/
def doubleFreeOps : List Op :=
  [.createDriver 1 "a" .car 0 0, .setAvailability 1 true, .createRide 7 0 0,
   .assignDriver 1 1 2, .transition 1 .completed 5, .createRide 8 0 0,
   .assignDriver 2 1 2]

/-- **C5.** The code at the failing input: after `doubleFreeOps`, ride 1 is
COMPLETED (its driver was already freed once by its first terminal
transition) and driver 1 is busy with ride 2; a further COMPLETED transition
on ride 1 succeeds and performs the free-the-driver side effect a second
time, flipping driver 1 back to available while it holds the non-terminal
ride 2 — the claim's "freed exactly once" fails on the code. -/
theorem update_ride_status_double_free :
    ((run DB.empty doubleFreeOps).findRide 1).map (fun r => r.status) =
      some .completed ∧
    ((run DB.empty doubleFreeOps).findDriver 1).map (fun d => d.available) =
      some false ∧
    (update_ride_status (run DB.empty doubleFreeOps) 1 .completed 9).2 = true ∧
    ((update_ride_status (run DB.empty doubleFreeOps) 1 .completed 9).1.findDriver 1).map
        (fun d => d.available) = some true := by
  refine ⟨rfl, rfl, rfl, rfl⟩

/-- **C7 counterexample.** Distance zero does not imply equal coordinate
pairs: the two distinct pairs (90, 0) and (90, 1) — both the north pole —
have `calculate_distance` exactly 0 (the haversine term is multiplied by
`cos(90°) = 0`), refuting the "zero only if equal" direction of the claim. -/
theorem calculate_distance_zero_of_distinct :
    calculate_distance 90 0 90 1 = 0 ∧
    ¬ (((90 : ℝ), (0 : ℝ)) = ((90 : ℝ), (1 : ℝ))) := by
  constructor
  · unfold calculate_distance radians atan2 round2_real
    have h90 : (90 : ℝ) * Real.pi / 180 = Real.pi / 2 := by ring
    rw [h90]
    norm_num [Real.cos_pi_div_two, Real.sqrt_zero, Real.sqrt_one, Real.arctan_zero]
  · intro h
    have := congrArg Prod.snd h
    norm_num at this

/-- **C7 (amended).** `calculate_distance` is symmetric and zero on the
diagonal: `distance(a,b) = distance(b,a)` and `distance(a,a) = 0`.  (The
converse — distance zero only when the coordinate pairs are equal — is false
of the code, see the counterexample: coincident points with distinct
coordinates, or points within the centimetre rounding, give 0.) -/
theorem calculate_distance_symm_and_zero (lat1 lng1 lat2 lng2 : ℝ) :
    calculate_distance lat1 lng1 lat2 lng2 = calculate_distance lat2 lng2 lat1 lng1 ∧
    calculate_distance lat1 lng1 lat1 lng1 = 0 := by
  constructor
  · unfold calculate_distance
    dsimp only
    have hsin : ∀ u v : ℝ, Real.sin ((u - v) / 2) ^ 2 = Real.sin ((v - u) / 2) ^ 2 := by
      intro u v
      rw [show (u - v) / 2 = -((v - u) / 2) by ring, Real.sin_neg, neg_sq]
    rw [hsin (radians lat2) (radians lat1), hsin (radians lng2) (radians lng1),
        mul_comm (Real.cos (radians lat1)) (Real.cos (radians lat2))]
  · unfold calculate_distance atan2 round2_real
    norm_num [Real.sin_zero, Real.sqrt_zero, Real.sqrt_one, Real.arctan_zero]

/-! ### Matching-engine lemmas -/

theorem first_closest_cons (x : Driver × ℚ) (xs : List (Driver × ℚ)) :
    first_closest (x :: xs) =
      match first_closest xs with
      | none => some x
      | some y => if x.2 ≤ y.2 then some x else some y := rfl

theorem distLE_trans : ∀ a b c : Driver × ℚ,
    (fun a b : Driver × ℚ => decide (a.2 ≤ b.2)) a b →
    (fun a b : Driver × ℚ => decide (a.2 ≤ b.2)) b c →
    (fun a b : Driver × ℚ => decide (a.2 ≤ b.2)) a c := by
  intro a b c hab hbc
  simp only [decide_eq_true_eq] at *
  exact le_trans hab hbc

theorem distLE_total : ∀ a b : Driver × ℚ,
    ((fun a b : Driver × ℚ => decide (a.2 ≤ b.2)) a b ||
     (fun a b : Driver × ℚ => decide (a.2 ≤ b.2)) b a) := by
  intro a b
  simp only [Bool.or_eq_true, decide_eq_true_eq]
  exact le_total _ _

/-- The head of the stable sort used by `find_nearest_driver` is exactly the
first minimum-distance candidate in input order. -/
theorem head?_mergeSort_eq_first_closest (l : List (Driver × ℚ)) :
    (l.mergeSort (fun a b => a.2 ≤ b.2)).head? = first_closest l := by
  induction l with
  | nil =>
    rw [List.mergeSort_nil]
    rfl
  | cons a t ih =>
    obtain ⟨l₁, l₂, h₁, h₂, h₃⟩ := List.mergeSort_cons distLE_trans distLE_total a t
    rw [h₁, first_closest_cons, ← ih, h₂]
    cases l₁ with
    | nil =>
      simp only [List.nil_append, List.head?_cons]
      cases l₂ with
      | nil => rfl
      | cons y t2 =>
        have hs := List.sorted_mergeSort distLE_trans distLE_total (a :: t)
        rw [h₁] at hs
        simp only [List.nil_append] at hs
        have hay := (List.pairwise_cons.mp hs).1 y (List.mem_cons_self _ _)
        simp only [decide_eq_true_eq] at hay
        simp [hay]
    | cons b l₁' =>
      have hb := h₃ b (List.mem_cons_self b l₁')
      simp only [Bool.not_eq_true', decide_eq_false_iff_not] at hb
      simp [hb]

theorem first_closest_eq_none_iff (l : List (Driver × ℚ)) :
    first_closest l = none ↔ l = [] := by
  cases l with
  | nil => simp [first_closest]
  | cons x xs =>
    rw [first_closest_cons]
    cases first_closest xs with
    | none => simp
    | some y =>
      by_cases h : x.2 ≤ y.2 <;> simp [h]

theorem first_closest_mem :
    ∀ {l : List (Driver × ℚ)} {e}, first_closest l = some e → e ∈ l := by
  intro l
  induction l with
  | nil =>
    intro e h
    exact absurd h (by simp [first_closest])
  | cons x xs ih =>
    intro e h
    rw [first_closest_cons] at h
    cases hxs : first_closest xs with
    | none =>
      rw [hxs] at h
      injection h with h
      exact h ▸ List.mem_cons_self _ _
    | some y =>
      rw [hxs] at h
      dsimp only at h
      by_cases hle : x.2 ≤ y.2
      · rw [if_pos hle] at h
        injection h with h
        exact h ▸ List.mem_cons_self _ _
      · rw [if_neg hle] at h
        injection h with h
        exact h ▸ List.mem_cons_of_mem _ (ih hxs)

theorem first_closest_min :
    ∀ {l : List (Driver × ℚ)} {e}, first_closest l = some e →
      ∀ x ∈ l, e.2 ≤ x.2 := by
  intro l
  induction l with
  | nil =>
    intro e h
    exact absurd h (by simp [first_closest])
  | cons x xs ih =>
    intro e h z hz
    rw [first_closest_cons] at h
    cases hxs : first_closest xs with
    | none =>
      rw [hxs] at h
      injection h with h
      subst h
      have hnil : xs = [] := (first_closest_eq_none_iff xs).mp hxs
      subst hnil
      rcases List.mem_singleton.mp hz with rfl
      exact le_refl _
    | some y =>
      rw [hxs] at h
      dsimp only at h
      rcases List.mem_cons.mp hz with hzx | hzxs
      · rw [hzx]
        by_cases hle : x.2 ≤ y.2
        · rw [if_pos hle] at h
          injection h with h
          subst h
          exact le_refl _
        · rw [if_neg hle] at h
          injection h with h
          subst h
          exact le_of_not_le hle
      · by_cases hle : x.2 ≤ y.2
        · rw [if_pos hle] at h
          injection h with h
          subst h
          exact le_trans hle (ih hxs z hzxs)
        · rw [if_neg hle] at h
          injection h with h
          subst h
          exact ih hxs z hzxs

/-- The `driver_distances` candidate list as built inside
`find_nearest_driver`: available drivers paired with their computed
distance, those beyond the radius discarded. -/
def driver_distances (distf : ℚ → ℚ → ℚ → ℚ → ℚ) (s : DB)
    (rider_lat rider_lng : ℚ) : List (Driver × ℚ) :=
  ((get_available_drivers s).map
    (fun d => (d, distf rider_lat rider_lng d.latitude d.longitude))).filter
      (fun x => x.2 ≤ MAX_SEARCH_DISTANCE_KM)

theorem find_nearest_driver_eq_first_closest (distf : ℚ → ℚ → ℚ → ℚ → ℚ)
    (s : DB) (rider_lat rider_lng : ℚ) :
    find_nearest_driver distf s rider_lat rider_lng =
      first_closest (driver_distances distf s rider_lat rider_lng) := by
  unfold find_nearest_driver driver_distances
  dsimp only
  by_cases hE : (get_available_drivers s).isEmpty
  · rw [if_pos hE]
    have hnil : get_available_drivers s = [] := List.isEmpty_iff.mp hE
    rw [hnil]
    rfl
  · rw [if_neg hE]
    by_cases hD : (((get_available_drivers s).map
        (fun d => (d, distf rider_lat rider_lng d.latitude d.longitude))).filter
          (fun x => x.2 ≤ MAX_SEARCH_DISTANCE_KM)).isEmpty
    · rw [if_pos hD]
      have hnil := List.isEmpty_iff.mp hD
      rw [hnil]
      rfl
    · rw [if_neg hD]
      exact head?_mergeSort_eq_first_closest _

/-- **C6.** `find_nearest_driver` considers only available drivers, discards
any candidate whose computed distance exceeds the 10.0 km radius (distance
exactly 10.0 is kept), returns `none` exactly when no candidate remains, and
otherwise returns a minimum-distance candidate, ties broken in favour of the
first-encountered driver (`first_closest` of the candidate list). -/
theorem find_nearest_driver_spec (distf : ℚ → ℚ → ℚ → ℚ → ℚ) (s : DB)
    (rider_lat rider_lng : ℚ) :
    find_nearest_driver distf s rider_lat rider_lng =
      first_closest (driver_distances distf s rider_lat rider_lng) ∧
    (find_nearest_driver distf s rider_lat rider_lng = none ↔
      ∀ d ∈ s.drivers, d.available = true →
        MAX_SEARCH_DISTANCE_KM < distf rider_lat rider_lng d.latitude d.longitude) ∧
    (∀ dr x, find_nearest_driver distf s rider_lat rider_lng = some (dr, x) →
      dr ∈ s.drivers ∧ dr.available = true ∧
      x = distf rider_lat rider_lng dr.latitude dr.longitude ∧
      x ≤ MAX_SEARCH_DISTANCE_KM ∧
      ∀ d ∈ s.drivers, d.available = true →
        distf rider_lat rider_lng d.latitude d.longitude ≤ MAX_SEARCH_DISTANCE_KM →
        x ≤ distf rider_lat rider_lng d.latitude d.longitude) := by
  have hfc := find_nearest_driver_eq_first_closest distf s rider_lat rider_lng
  refine ⟨hfc, ?_, ?_⟩
  · rw [hfc, first_closest_eq_none_iff]
    unfold driver_distances
    rw [List.filter_eq_nil_iff]
    constructor
    · intro h d hd hav
      have hm : (d, distf rider_lat rider_lng d.latitude d.longitude) ∈
          (get_available_drivers s).map
            (fun d => (d, distf rider_lat rider_lng d.latitude d.longitude)) :=
        List.mem_map_of_mem _ (List.mem_filter.mpr ⟨hd, hav⟩)
      have hnot := h _ hm
      simp only [decide_eq_true_eq] at hnot
      exact lt_of_not_le hnot
    · intro h x hx
      obtain ⟨d, hd, rfl⟩ := List.mem_map.mp hx
      have hdm := List.mem_filter.mp hd
      have hlt := h d hdm.1 hdm.2
      simp only [decide_eq_true_eq]
      exact not_le_of_lt hlt
  · intro dr x hsome
    rw [hfc] at hsome
    have hmem := first_closest_mem hsome
    have hmin := first_closest_min hsome
    unfold driver_distances at hmem hmin
    have hfilter := List.mem_filter.mp hmem
    obtain ⟨d0, hd0, heq⟩ := List.mem_map.mp hfilter.1
    have hd0m := List.mem_filter.mp hd0
    cases heq
    refine ⟨hd0m.1, hd0m.2, rfl, ?_, ?_⟩
    · have := hfilter.2
      simp only [decide_eq_true_eq] at this
      exact this
    · intro d hd hav hle
      have hcand : (d, distf rider_lat rider_lng d.latitude d.longitude) ∈
          ((get_available_drivers s).map
            (fun d => (d, distf rider_lat rider_lng d.latitude d.longitude))).filter
              (fun x => x.2 ≤ MAX_SEARCH_DISTANCE_KM) :=
        List.mem_filter.mpr
          ⟨List.mem_map_of_mem _ (List.mem_filter.mpr ⟨hd, hav⟩), by simpa using hle⟩
      exact hmin _ hcand

/-- Radius-boundary and tie-break demo store: driver 1 at computed distance
10.01 km (excluded), drivers 2 and 3 at exactly 10.00 km (included; the
first-encountered driver 2 wins the tie). -/
def radiusDemo : DB :=
  { drivers :=
      [{ id := 1, name := "far", vehicle_type := .car, available := true,
         latitude := 10.01, longitude := 0, rating := 5, total_rides := 0 },
       { id := 2, name := "tieA", vehicle_type := .car, available := true,
         latitude := 10, longitude := 0, rating := 5, total_rides := 0 },
       { id := 3, name := "tieB", vehicle_type := .car, available := true,
         latitude := 10, longitude := 0, rating := 5, total_rides := 0 }],
    rides := [], history := [], next_ride_id := 1 }

/-- Probe distance function for the witness: the driver's latitude is its
computed distance. -/
def latDist : ℚ → ℚ → ℚ → ℚ → ℚ := fun _ _ la _ => la

theorem find_nearest_driver_spec_witness :
    find_nearest_driver latDist radiusDemo 0 0 =
      some ({ id := 2, name := "tieA", vehicle_type := .car, available := true,
              latitude := 10, longitude := 0, rating := 5, total_rides := 0 }, 10) := by
  rw [(find_nearest_driver_spec latDist radiusDemo 0 0).1]
  have h1 : ¬ ((10.01 : ℚ) ≤ MAX_SEARCH_DISTANCE_KM) := by
    unfold MAX_SEARCH_DISTANCE_KM
    norm_num
  have h2 : ((10 : ℚ) ≤ MAX_SEARCH_DISTANCE_KM) := by
    unfold MAX_SEARCH_DISTANCE_KM
    norm_num
  unfold driver_distances get_available_drivers radiusDemo latDist
  simp [first_closest, h1, h2]

/-! ### Reachability invariant for the assignment core -/

/-- Under unique keys, a member matching a key is what `find?` returns. -/
theorem find?_eq_of_mem_of_nodup_keys {α : Type} (key : α → Nat) :
    ∀ (l : List α), (l.map key).Nodup → ∀ x ∈ l, ∀ k : Nat, key x = k →
      l.find? (fun a => key a == k) = some x := by
  intro l
  induction l with
  | nil =>
    intro _ x hx
    exact absurd hx (List.not_mem_nil x)
  | cons y t ih =>
    intro hnd x hx k hk
    simp only [List.map_cons, List.nodup_cons] at hnd
    rcases List.mem_cons.mp hx with rfl | hxt
    · rw [List.find?_cons, hk]
      simp
    · by_cases hky : key y = k
      · exfalso
        apply hnd.1
        rw [hky, ← hk]
        exact List.mem_map_of_mem key hxt
      · rw [List.find?_cons]
        have : (key y == k) = false := by
          simp [hky]
        rw [this]
        exact ih hnd.2 x hxt k hk

theorem setRide_keys (s : DB) (rid : Nat) (f : Ride → Ride)
    (hf : ∀ r, (f r).id = r.id) :
    (s.setRide rid f).rides.map (fun r => r.id) = s.rides.map (fun r => r.id) := by
  show (s.rides.map _).map _ = _
  rw [List.map_map]
  apply List.map_congr_left
  intro r _
  by_cases h : r.id = rid <;> simp [h, hf]

theorem setDriver_keys (s : DB) (did : Nat) (f : Driver → Driver)
    (hf : ∀ d, (f d).id = d.id) :
    (s.setDriver did f).drivers.map (fun d => d.id) = s.drivers.map (fun d => d.id) := by
  show (s.drivers.map _).map _ = _
  rw [List.map_map]
  apply List.map_congr_left
  intro d _
  by_cases h : d.id = did <;> simp [h, hf]

theorem mem_setRide (s : DB) (rid : Nat) (f : Ride → Ride) (r' : Ride)
    (h : r' ∈ (s.setRide rid f).rides) :
    ∃ r ∈ s.rides, r' = if r.id == rid then f r else r := by
  obtain ⟨r, hr, he⟩ := List.mem_map.mp h
  exact ⟨r, hr, he.symm⟩

theorem mem_setDriver (s : DB) (did : Nat) (f : Driver → Driver) (d' : Driver)
    (h : d' ∈ (s.setDriver did f).drivers) :
    ∃ d ∈ s.drivers, d' = if d.id == did then f d else d := by
  obtain ⟨d, hd, he⟩ := List.mem_map.mp h
  exact ⟨d, hd, he.symm⟩

/-- The working invariant of the assignment core, maintained by disciplined
operation sequences: unique keys, ride ids below the autoincrement counter,
REQUESTED rides have no driver, a driver attached to a non-terminal ride
exists and is unavailable, and no two distinct non-terminal rides share a
driver. -/
structure CoreInv (s : DB) : Prop where
  driversNodup : (s.drivers.map (fun d => d.id)).Nodup
  ridesNodup : (s.rides.map (fun r => r.id)).Nodup
  ridesLt : ∀ r ∈ s.rides, r.id < s.next_ride_id
  requestedNoDriver : ∀ r ∈ s.rides, r.status = .requested → r.driver_id = none
  busyUnavail : ∀ r ∈ s.rides, r.status.isActive = true → ∀ d, r.driver_id = some d →
    ∃ drv, s.findDriver d = some drv ∧ drv.available = false
  uniqueActive : ∀ r1 ∈ s.rides, ∀ r2 ∈ s.rides, r1.status.isActive = true →
    r2.status.isActive = true → ∀ d, r1.driver_id = some d → r2.driver_id = some d →
    r1.id = r2.id

theorem inv_empty : CoreInv DB.empty := by
  constructor <;> simp [DB.empty]

theorem coreInv_set_history (s : DB) (h : List RideHistoryEntry) (hInv : CoreInv s) :
    CoreInv { s with history := h } := by
  constructor
  · exact hInv.driversNodup
  · exact hInv.ridesNodup
  · exact hInv.ridesLt
  · exact hInv.requestedNoDriver
  · exact hInv.busyUnavail
  · exact hInv.uniqueActive

/-- A ride update that keeps id, status and driver reference (e.g. storing a
rating) preserves the invariant. -/
theorem coreInv_setRide_benign (s : DB) (rid : Nat) (f : Ride → Ride)
    (hid : ∀ r, (f r).id = r.id) (hstat : ∀ r, (f r).status = r.status)
    (hdrv : ∀ r, (f r).driver_id = r.driver_id) (hInv : CoreInv s) :
    CoreInv (s.setRide rid f) := by
  constructor
  · exact hInv.driversNodup
  · rw [setRide_keys _ _ _ hid]
    exact hInv.ridesNodup
  · intro r' hr'
    obtain ⟨r, hr, he⟩ := mem_setRide _ _ _ _ hr'
    have : r'.id = r.id := by
      by_cases h : r.id = rid <;> simp [h, he, hid]
    rw [this]
    exact hInv.ridesLt r hr
  · intro r' hr' hreq
    obtain ⟨r, hr, he⟩ := mem_setRide _ _ _ _ hr'
    have hs : r'.status = r.status := by
      by_cases h : r.id = rid <;> simp [h, he, hstat]
    have hd : r'.driver_id = r.driver_id := by
      by_cases h : r.id = rid <;> simp [h, he, hdrv]
    rw [hd]
    exact hInv.requestedNoDriver r hr (hs ▸ hreq)
  · intro r' hr' hact d hd
    obtain ⟨r, hr, he⟩ := mem_setRide _ _ _ _ hr'
    have hs : r'.status = r.status := by
      by_cases h : r.id = rid <;> simp [h, he, hstat]
    have hdd : r'.driver_id = r.driver_id := by
      by_cases h : r.id = rid <;> simp [h, he, hdrv]
    exact hInv.busyUnavail r hr (hs ▸ hact) d (hdd ▸ hd)
  · intro r1 h1 r2 h2 ha1 ha2 d hd1 hd2
    obtain ⟨q1, hq1, he1⟩ := mem_setRide _ _ _ _ h1
    obtain ⟨q2, hq2, he2⟩ := mem_setRide _ _ _ _ h2
    have hi1 : r1.id = q1.id := by
      by_cases h : q1.id = rid <;> simp [h, he1, hid]
    have hi2 : r2.id = q2.id := by
      by_cases h : q2.id = rid <;> simp [h, he2, hid]
    have hs1 : r1.status = q1.status := by
      by_cases h : q1.id = rid <;> simp [h, he1, hstat]
    have hs2 : r2.status = q2.status := by
      by_cases h : q2.id = rid <;> simp [h, he2, hstat]
    have hv1 : r1.driver_id = q1.driver_id := by
      by_cases h : q1.id = rid <;> simp [h, he1, hdrv]
    have hv2 : r2.driver_id = q2.driver_id := by
      by_cases h : q2.id = rid <;> simp [h, he2, hdrv]
    rw [hi1, hi2]
    exact hInv.uniqueActive q1 hq1 q2 hq2 (hs1 ▸ ha1) (hs2 ▸ ha2) d
      (hv1 ▸ hd1) (hv2 ▸ hd2)

/-- A driver update that keeps id and availability (profile or rating change)
preserves the invariant. -/
theorem coreInv_setDriver_benign (s : DB) (did : Nat) (f : Driver → Driver)
    (hid : ∀ d, (f d).id = d.id) (hav : ∀ d, (f d).available = d.available)
    (hInv : CoreInv s) : CoreInv (s.setDriver did f) := by
  constructor
  · rw [setDriver_keys _ _ _ hid]
    exact hInv.driversNodup
  · exact hInv.ridesNodup
  · exact hInv.ridesLt
  · exact hInv.requestedNoDriver
  · intro r hr hact d hd
    obtain ⟨drv, hdrv, havd⟩ := hInv.busyUnavail r hr hact d hd
    by_cases hdu : d = did
    · subst hdu
      rw [findDriver_setDriver_self _ _ _ hid, hdrv]
      exact ⟨f drv, rfl, (hav drv) ▸ havd⟩
    · rw [findDriver_setDriver_ne _ _ _ _ hid hdu]
      exact ⟨drv, hdrv, havd⟩
  · exact hInv.uniqueActive

/-- Setting a driver unavailable preserves the invariant. -/
theorem coreInv_setDriver_unavail (s : DB) (u : Nat) (hInv : CoreInv s) :
    CoreInv (s.setDriver u (fun d => { d with available := false })) := by
  constructor
  · rw [setDriver_keys _ _ _ (by intro x; rfl)]
    exact hInv.driversNodup
  · exact hInv.ridesNodup
  · exact hInv.ridesLt
  · exact hInv.requestedNoDriver
  · intro r hr hact d hd
    obtain ⟨drv, hdrv, havd⟩ := hInv.busyUnavail r hr hact d hd
    by_cases hdu : d = u
    · subst hdu
      rw [findDriver_setDriver_self _ _ _ (by intro x; rfl), hdrv]
      exact ⟨_, rfl, rfl⟩
    · rw [findDriver_setDriver_ne _ _ _ _ (by intro x; rfl) hdu]
      exact ⟨drv, hdrv, havd⟩
  · exact hInv.uniqueActive

/-- Setting a driver available is invariant-preserving when the driver holds
no non-terminal ride (the `go_available` guard). -/
theorem coreInv_setDriver_avail_free (s : DB) (u : Nat) (hfree : driverBusy s u = false)
    (hInv : CoreInv s) :
    CoreInv (s.setDriver u (fun d => { d with available := true })) := by
  constructor
  · rw [setDriver_keys _ _ _ (by intro x; rfl)]
    exact hInv.driversNodup
  · exact hInv.ridesNodup
  · exact hInv.ridesLt
  · exact hInv.requestedNoDriver
  · intro r hr hact d hd
    obtain ⟨drv, hdrv, havd⟩ := hInv.busyUnavail r hr hact d hd
    by_cases hdu : d = u
    · exfalso
      subst hdu
      unfold driverBusy at hfree
      rw [List.any_eq_false] at hfree
      exact hfree r hr (by simp [hact, hd])
    · rw [findDriver_setDriver_ne _ _ _ _ (by intro x; rfl) hdu]
      exact ⟨drv, hdrv, havd⟩
  · exact hInv.uniqueActive

theorem inv_set_driver_availability (s : DB) (u : Nat) (b : Bool)
    (hInv : CoreInv s) (hguard : b = true → driverBusy s u = false) :
    CoreInv ((set_driver_availability s u b).1) := by
  unfold set_driver_availability
  cases hf : s.findDriver u with
  | none => exact hInv
  | some d0 =>
    dsimp only
    cases b with
    | false => exact coreInv_setDriver_unavail s u hInv
    | true => exact coreInv_setDriver_avail_free s u (hguard rfl) hInv

theorem inv_create_driver (s : DB) (u : Nat) (n : String) (vt : VehicleType)
    (lat lng : ℚ) (hInv : CoreInv s) : CoreInv (create_driver s u n vt lat lng) := by
  unfold create_driver
  cases hf : s.findDriver u with
  | some d0 =>
    exact coreInv_setDriver_benign s u _ (by intro x; rfl) (by intro x; rfl) hInv
  | none =>
    constructor
    · rw [List.map_append, List.nodup_append]
      refine ⟨hInv.driversNodup, List.nodup_singleton _, ?_⟩
      intro a ha hb
      simp only [List.map_cons, List.map_nil, List.mem_singleton] at hb
      subst hb
      unfold DB.findDriver at hf
      rw [List.find?_eq_none] at hf
      obtain ⟨d, hd, hdu⟩ := List.mem_map.mp ha
      exact hf d hd (by simp [hdu])
    · exact hInv.ridesNodup
    · exact hInv.ridesLt
    · exact hInv.requestedNoDriver
    · intro r hr hact d hd
      obtain ⟨drv, hdrv, havd⟩ := hInv.busyUnavail r hr hact d hd
      refine ⟨drv, ?_, havd⟩
      show (s.drivers ++ _).find? (fun d0 => d0.id == d) = some drv
      rw [List.find?_append]
      unfold DB.findDriver at hdrv
      rw [hdrv]
      rfl
    · exact hInv.uniqueActive

theorem inv_create_ride (s : DB) (u : Nat) (lat lng : ℚ) (hInv : CoreInv s) :
    CoreInv ((create_ride s u lat lng).1) := by
  unfold create_ride
  dsimp only
  constructor
  · exact hInv.driversNodup
  · rw [List.map_append, List.nodup_append]
    refine ⟨hInv.ridesNodup, List.nodup_singleton _, ?_⟩
    intro a ha hb
    simp only [List.map_cons, List.map_nil, List.mem_singleton] at hb
    subst hb
    obtain ⟨r, hr, hid⟩ := List.mem_map.mp ha
    have hlt := hInv.ridesLt r hr
    have hid' : r.id = s.next_ride_id := by simpa using hid
    omega
  · intro r hr
    rcases List.mem_append.mp hr with h | h
    · have hlt := hInv.ridesLt r h
      show r.id < s.next_ride_id + 1
      omega
    · simp only [List.mem_singleton] at h
      subst h
      show s.next_ride_id < s.next_ride_id + 1
      omega
  · intro r hr hreq
    rcases List.mem_append.mp hr with h | h
    · exact hInv.requestedNoDriver r h hreq
    · simp only [List.mem_singleton] at h
      subst h
      rfl
  · intro r hr hact d hd
    rcases List.mem_append.mp hr with h | h
    · obtain ⟨drv, hdrv, havd⟩ := hInv.busyUnavail r h hact d hd
      exact ⟨drv, hdrv, havd⟩
    · simp only [List.mem_singleton] at h
      subst h
      exact absurd hd (by simp)
  · intro r1 h1 r2 h2 ha1 ha2 d hd1 hd2
    rcases List.mem_append.mp h1 with h1 | h1
    · rcases List.mem_append.mp h2 with h2 | h2
      · exact hInv.uniqueActive r1 h1 r2 h2 ha1 ha2 d hd1 hd2
      · simp only [List.mem_singleton] at h2
        subst h2
        exact absurd hd2 (by simp)
    · simp only [List.mem_singleton] at h1
      subst h1
      exact absurd hd1 (by simp)

theorem inv_assign (s : DB) (rid did : Nat) (dist : ℚ) (hInv : CoreInv s) :
    CoreInv ((assign_driver_to_ride s rid did dist).1) := by
  have hq : s.drivers.find? (fun d => d.id == did && d.available)
      = match s.findDriver did with
        | some d => if d.available then some d else none
        | none => none :=
    find?_id_and_available s.drivers did hInv.driversNodup
  unfold assign_driver_to_ride
  rw [hq]
  cases hfd : s.findDriver did with
  | none => exact hInv
  | some d0 =>
    by_cases hav : d0.available = true
    · simp only [hav, if_true]
      cases hfr : s.findRide rid with
      | none => exact hInv
      | some r0 =>
        dsimp only
        by_cases hst : r0.status = .requested
        · rw [if_pos hst]
          have hr0mem : r0 ∈ s.rides := List.mem_of_find?_eq_some hfr
          have hr0id : r0.id = rid := by
            have h := List.find?_some hfr
            simpa using h
          have hnoact : ∀ r ∈ s.rides, r.status.isActive = true →
              r.driver_id ≠ some did := by
            intro r hr hact hd
            obtain ⟨drv, hdrv, havd⟩ := hInv.busyUnavail r hr hact did hd
            rw [hfd] at hdrv
            injection hdrv with hdd
            rw [hdd] at hav
            rw [hav] at havd
            cases havd
          have hfindr : ∀ r ∈ s.rides, r.id = rid → r = r0 := by
            intro r hr hid
            have hfind := find?_eq_of_mem_of_nodup_keys (fun r => r.id) s.rides
              hInv.ridesNodup r hr rid hid
            unfold DB.findRide at hfr
            rw [hfind] at hfr
            exact Option.some_inj.mp hfr
          apply coreInv_set_history
          constructor
          · rw [setDriver_keys _ _ _ (by intro x; rfl), setRide_drivers]
            exact hInv.driversNodup
          · rw [setDriver_rides, setRide_keys _ _ _ (by intro x; rfl)]
            exact hInv.ridesNodup
          · intro r' hr'
            rw [setDriver_rides] at hr'
            obtain ⟨r, hr, he⟩ := mem_setRide _ _ _ _ hr'
            have hlt := hInv.ridesLt r hr
            have hid' : r'.id = r.id := by
              by_cases hid : r.id = rid <;> simp [hid, he]
            rw [hid']
            exact hlt
          · intro r' hr' hreq
            rw [setDriver_rides] at hr'
            obtain ⟨r, hr, he⟩ := mem_setRide _ _ _ _ hr'
            by_cases hid : r.id = rid
            · simp only [hid, beq_self_eq_true, if_true] at he
              rw [he] at hreq
              exact absurd hreq (by simp)
            · have hne : ¬ ((r.id == rid) = true) := by simp [hid]
              rw [if_neg hne] at he
              rw [he] at hreq ⊢
              exact hInv.requestedNoDriver r hr hreq
          · intro r' hr' hact d hd
            rw [setDriver_rides] at hr'
            obtain ⟨r, hr, he⟩ := mem_setRide _ _ _ _ hr'
            by_cases hid : r.id = rid
            · simp only [hid, beq_self_eq_true, if_true] at he
              have hrr0 := hfindr r hr hid
              rw [hrr0] at he
              rw [he] at hd
              have hdd : d = did := by
                have := hd
                simpa using this.symm
              subst hdd
              refine ⟨{ d0 with available := false }, ?_, rfl⟩
              rw [findDriver_setDriver_self _ _ _ (by intro x; rfl),
                  findDriver_setRide, hfd]
              rfl
            · have hne : ¬ ((r.id == rid) = true) := by simp [hid]
              rw [if_neg hne] at he
              rw [he] at hact hd
              by_cases hdu : d = did
              · exfalso
                subst hdu
                exact hnoact r hr hact hd
              · obtain ⟨drv, hdrv, havd⟩ := hInv.busyUnavail r hr hact d hd
                refine ⟨drv, ?_, havd⟩
                rw [findDriver_setDriver_ne _ _ _ _ (by intro x; rfl) hdu,
                    findDriver_setRide]
                exact hdrv
          · intro r1 h1 r2 h2 ha1 ha2 d hd1 hd2
            rw [setDriver_rides] at h1 h2
            obtain ⟨q1, hq1, he1⟩ := mem_setRide _ _ _ _ h1
            obtain ⟨q2, hq2, he2⟩ := mem_setRide _ _ _ _ h2
            by_cases hi1 : q1.id = rid
            · simp only [hi1, beq_self_eq_true, if_true] at he1
              have hq10 := hfindr q1 hq1 hi1
              rw [hq10] at he1
              by_cases hi2 : q2.id = rid
              · simp only [hi2, beq_self_eq_true, if_true] at he2
                have hq20 := hfindr q2 hq2 hi2
                rw [hq20] at he2
                rw [he1, he2]
              · have hne2 : ¬ ((q2.id == rid) = true) := by simp [hi2]
                rw [if_neg hne2] at he2
                exfalso
                rw [he1] at hd1
                have hdd : d = did := by simpa using hd1.symm
                subst hdd
                rw [he2] at ha2 hd2
                exact hnoact q2 hq2 ha2 hd2
            · have hne1 : ¬ ((q1.id == rid) = true) := by simp [hi1]
              rw [if_neg hne1] at he1
              by_cases hi2 : q2.id = rid
              · simp only [hi2, beq_self_eq_true, if_true] at he2
                have hq20 := hfindr q2 hq2 hi2
                rw [hq20] at he2
                exfalso
                rw [he2] at hd2
                have hdd : d = did := by simpa using hd2.symm
                subst hdd
                rw [he1] at ha1 hd1
                exact hnoact q1 hq1 ha1 hd1
              · have hne2 : ¬ ((q2.id == rid) = true) := by simp [hi2]
                rw [if_neg hne2] at he2
                rw [he1] at ha1 hd1 ⊢
                rw [he2] at ha2 hd2 ⊢
                exact hInv.uniqueActive q1 hq1 q2 hq2 ha1 ha2 d hd1 hd2
        · rw [if_neg hst]
          exact hInv
    · have hav' : d0.available = false := by
        cases hb : d0.available
        · rfl
        · exact absurd hb hav
      simp only [hav', if_false]
      exact hInv

theorem setRide_setRide (s : DB) (rid : Nat) (f g : Ride → Ride)
    (hf : ∀ r, (f r).id = r.id) :
    (s.setRide rid f).setRide rid g = s.setRide rid (fun r => g (f r)) := by
  unfold DB.setRide
  simp only [List.map_map]
  congr 1
  apply List.map_congr_left
  intro r _
  by_cases h : r.id = rid
  · simp [h, hf]
  · simp [h]

theorem inv_update_ride_status (s : DB) (rid : Nat) (st : RideStatus) (now : Nat)
    (hInv : CoreInv s)
    (hst3 : st = .ongoing ∨ st = .completed ∨ st = .cancelled)
    (hactx : ∀ r, s.findRide rid = some r → r.status.isActive = true) :
    CoreInv ((update_ride_status s rid st now).1) := by
  cases hfr : s.findRide rid with
  | none =>
    have heq : update_ride_status s rid st now = (s, false) := by
      unfold update_ride_status
      rw [hfr]
    rw [heq]
    exact hInv
  | some r0 =>
    have heq := update_ride_status_eq_of_found s rid st now r0 hfr
    rw [heq]
    dsimp only
    have hr0mem : r0 ∈ s.rides := List.mem_of_find?_eq_some hfr
    have hr0id : r0.id = rid := by
      have h := List.find?_some hfr
      simpa using h
    have hr0act : r0.status.isActive = true := hactx r0 hfr
    have hfindr : ∀ r ∈ s.rides, r.id = rid → r = r0 := by
      intro r hr hid
      have hfind := find?_eq_of_mem_of_nodup_keys (fun r => r.id) s.rides
        hInv.ridesNodup r hr rid hid
      unfold DB.findRide at hfr
      rw [hfind] at hfr
      exact Option.some_inj.mp hfr
    by_cases hterm : st = .completed ∨ st = .cancelled
    · rw [if_pos hterm]
      have hstact : st.isActive = false := by
        rcases hterm with h | h <;> simp [h, RideStatus.isActive]
      rw [setRide_setRide _ _ _ _ (by intro x; rfl)]
      cases hdid : r0.driver_id with
      | none =>
        apply coreInv_set_history
        constructor
        · exact hInv.driversNodup
        · rw [setRide_keys _ _ _ (by intro x; rfl)]
          exact hInv.ridesNodup
        · intro r' hr'
          obtain ⟨r, hr, he⟩ := mem_setRide _ _ _ _ hr'
          have hidp : r'.id = r.id := by
            by_cases h : r.id = rid <;> simp [h, he]
          rw [hidp]
          exact hInv.ridesLt r hr
        · intro r' hr' hreq
          obtain ⟨r, hr, he⟩ := mem_setRide _ _ _ _ hr'
          by_cases h : r.id = rid
          · simp only [h, beq_self_eq_true, if_true] at he
            rw [he] at hreq
            have : st = .requested := hreq
            rcases hterm with ht | ht <;> rw [ht] at this <;> cases this
          · have hne : ¬ ((r.id == rid) = true) := by simp [h]
            rw [if_neg hne] at he
            rw [he] at hreq ⊢
            exact hInv.requestedNoDriver r hr hreq
        · intro r' hr' hact d hd
          obtain ⟨r, hr, he⟩ := mem_setRide _ _ _ _ hr'
          by_cases h : r.id = rid
          · exfalso
            simp only [h, beq_self_eq_true, if_true] at he
            rw [he] at hact
            have : st.isActive = true := hact
            rw [hstact] at this
            cases this
          · have hne : ¬ ((r.id == rid) = true) := by simp [h]
            rw [if_neg hne] at he
            rw [he] at hact hd
            exact hInv.busyUnavail r hr hact d hd
        · intro r1 h1 r2 h2 ha1 ha2 d hd1 hd2
          obtain ⟨q1, hq1, he1⟩ := mem_setRide _ _ _ _ h1
          obtain ⟨q2, hq2, he2⟩ := mem_setRide _ _ _ _ h2
          by_cases hi1 : q1.id = rid
          · exfalso
            simp only [hi1, beq_self_eq_true, if_true] at he1
            rw [he1] at ha1
            have : st.isActive = true := ha1
            rw [hstact] at this
            cases this
          · have hne1 : ¬ ((q1.id == rid) = true) := by simp [hi1]
            rw [if_neg hne1] at he1
            by_cases hi2 : q2.id = rid
            · exfalso
              simp only [hi2, beq_self_eq_true, if_true] at he2
              rw [he2] at ha2
              have : st.isActive = true := ha2
              rw [hstact] at this
              cases this
            · have hne2 : ¬ ((q2.id == rid) = true) := by simp [hi2]
              rw [if_neg hne2] at he2
              rw [he1] at ha1 hd1 ⊢
              rw [he2] at ha2 hd2 ⊢
              exact hInv.uniqueActive q1 hq1 q2 hq2 ha1 ha2 d hd1 hd2
      | some did =>
        apply coreInv_set_history
        constructor
        · rw [setDriver_keys _ _ _ (by intro x; rfl), setRide_drivers]
          exact hInv.driversNodup
        · rw [setDriver_rides, setRide_keys _ _ _ (by intro x; rfl)]
          exact hInv.ridesNodup
        · intro r' hr'
          rw [setDriver_rides] at hr'
          obtain ⟨r, hr, he⟩ := mem_setRide _ _ _ _ hr'
          have hidp : r'.id = r.id := by
            by_cases h : r.id = rid <;> simp [h, he]
          rw [hidp]
          exact hInv.ridesLt r hr
        · intro r' hr' hreq
          rw [setDriver_rides] at hr'
          obtain ⟨r, hr, he⟩ := mem_setRide _ _ _ _ hr'
          by_cases h : r.id = rid
          · simp only [h, beq_self_eq_true, if_true] at he
            rw [he] at hreq
            have : st = .requested := hreq
            rcases hterm with ht | ht <;> rw [ht] at this <;> cases this
          · have hne : ¬ ((r.id == rid) = true) := by simp [h]
            rw [if_neg hne] at he
            rw [he] at hreq ⊢
            exact hInv.requestedNoDriver r hr hreq
        · intro r' hr' hact d hd
          rw [setDriver_rides] at hr'
          obtain ⟨r, hr, he⟩ := mem_setRide _ _ _ _ hr'
          by_cases h : r.id = rid
          · exfalso
            simp only [h, beq_self_eq_true, if_true] at he
            rw [he] at hact
            have : st.isActive = true := hact
            rw [hstact] at this
            cases this
          · have hne : ¬ ((r.id == rid) = true) := by simp [h]
            rw [if_neg hne] at he
            rw [he] at hact hd
            by_cases hdu : d = did
            · exfalso
              subst hdu
              have := hInv.uniqueActive r hr r0 hr0mem hact hr0act d hd hdid
              rw [hr0id] at this
              exact h this
            · obtain ⟨drv, hdrv, havd⟩ := hInv.busyUnavail r hr hact d hd
              refine ⟨drv, ?_, havd⟩
              rw [findDriver_setDriver_ne _ _ _ _ (by intro x; rfl) hdu,
                  findDriver_setRide]
              exact hdrv
        · intro r1 h1 r2 h2 ha1 ha2 d hd1 hd2
          rw [setDriver_rides] at h1 h2
          obtain ⟨q1, hq1, he1⟩ := mem_setRide _ _ _ _ h1
          obtain ⟨q2, hq2, he2⟩ := mem_setRide _ _ _ _ h2
          by_cases hi1 : q1.id = rid
          · exfalso
            simp only [hi1, beq_self_eq_true, if_true] at he1
            rw [he1] at ha1
            have : st.isActive = true := ha1
            rw [hstact] at this
            cases this
          · have hne1 : ¬ ((q1.id == rid) = true) := by simp [hi1]
            rw [if_neg hne1] at he1
            by_cases hi2 : q2.id = rid
            · exfalso
              simp only [hi2, beq_self_eq_true, if_true] at he2
              rw [he2] at ha2
              have : st.isActive = true := ha2
              rw [hstact] at this
              cases this
            · have hne2 : ¬ ((q2.id == rid) = true) := by simp [hi2]
              rw [if_neg hne2] at he2
              rw [he1] at ha1 hd1 ⊢
              rw [he2] at ha2 hd2 ⊢
              exact hInv.uniqueActive q1 hq1 q2 hq2 ha1 ha2 d hd1 hd2
    · rw [if_neg hterm]
      have hong : st = .ongoing := by
        rcases hst3 with h | h | h
        · exact h
        · exact absurd (Or.inl h) hterm
        · exact absurd (Or.inr h) hterm
      apply coreInv_set_history
      constructor
      · exact hInv.driversNodup
      · rw [setRide_keys _ _ _ (by intro x; rfl)]
        exact hInv.ridesNodup
      · intro r' hr'
        obtain ⟨r, hr, he⟩ := mem_setRide _ _ _ _ hr'
        have hidp : r'.id = r.id := by
          by_cases h : r.id = rid <;> simp [h, he]
        rw [hidp]
        exact hInv.ridesLt r hr
      · intro r' hr' hreq
        obtain ⟨r, hr, he⟩ := mem_setRide _ _ _ _ hr'
        by_cases h : r.id = rid
        · simp only [h, beq_self_eq_true, if_true] at he
          rw [he] at hreq
          have : st = .requested := hreq
          rw [hong] at this
          cases this
        · have hne : ¬ ((r.id == rid) = true) := by simp [h]
          rw [if_neg hne] at he
          rw [he] at hreq ⊢
          exact hInv.requestedNoDriver r hr hreq
      · intro r' hr' hact d hd
        obtain ⟨r, hr, he⟩ := mem_setRide _ _ _ _ hr'
        by_cases h : r.id = rid
        · simp only [h, beq_self_eq_true, if_true] at he
          have hrr0 := hfindr r hr h
          rw [hrr0] at he
          rw [he] at hd
          have hd0 : r0.driver_id = some d := hd
          exact hInv.busyUnavail r0 hr0mem hr0act d hd0
        · have hne : ¬ ((r.id == rid) = true) := by simp [h]
          rw [if_neg hne] at he
          rw [he] at hact hd
          exact hInv.busyUnavail r hr hact d hd
      · intro r1 h1 r2 h2 ha1 ha2 d hd1 hd2
        obtain ⟨q1, hq1, he1⟩ := mem_setRide _ _ _ _ h1
        obtain ⟨q2, hq2, he2⟩ := mem_setRide _ _ _ _ h2
        by_cases hi1 : q1.id = rid
        · simp only [hi1, beq_self_eq_true, if_true] at he1
          have hq10 := hfindr q1 hq1 hi1
          rw [hq10] at he1
          by_cases hi2 : q2.id = rid
          · simp only [hi2, beq_self_eq_true, if_true] at he2
            have hq20 := hfindr q2 hq2 hi2
            rw [hq20] at he2
            rw [he1, he2]
          · have hne2 : ¬ ((q2.id == rid) = true) := by simp [hi2]
            rw [if_neg hne2] at he2
            rw [he1] at hd1 ⊢
            rw [he2] at ha2 hd2 ⊢
            have hd10 : r0.driver_id = some d := hd1
            have hres := hInv.uniqueActive r0 hr0mem q2 hq2 hr0act ha2 d hd10 hd2
            rw [hr0id] at hres
            exact hres
        · have hne1 : ¬ ((q1.id == rid) = true) := by simp [hi1]
          rw [if_neg hne1] at he1
          by_cases hi2 : q2.id = rid
          · simp only [hi2, beq_self_eq_true, if_true] at he2
            have hq20 := hfindr q2 hq2 hi2
            rw [hq20] at he2
            rw [he1] at ha1 hd1 ⊢
            rw [he2] at hd2 ⊢
            have hd20 : r0.driver_id = some d := hd2
            have hres := hInv.uniqueActive q1 hq1 r0 hr0mem ha1 hr0act d hd1 hd20
            rw [hr0id] at hres
            exact hres
          · have hne2 : ¬ ((q2.id == rid) = true) := by simp [hi2]
            rw [if_neg hne2] at he2
            rw [he1] at ha1 hd1 ⊢
            rw [he2] at ha2 hd2 ⊢
            exact hInv.uniqueActive q1 hq1 q2 hq2 ha1 ha2 d hd1 hd2

theorem inv_add_ride_rating (s : DB) (rid v : Nat) (hInv : CoreInv s) :
    CoreInv ((add_ride_rating s rid v).1) := by
  cases hfr : s.findRide rid with
  | none =>
    have heq : add_ride_rating s rid v = (s, false) := by
      unfold add_ride_rating
      rw [hfr]
    rw [heq]
    exact hInv
  | some r0 =>
    by_cases hst : r0.status = .completed
    · rw [add_ride_rating_found_completed s rid v r0 hfr hst]
      have hInv1 : CoreInv (s.setRide rid (fun r => { r with rating := some v })) :=
        coreInv_setRide_benign s rid _ (by intro x; rfl) (by intro x; rfl)
          (by intro x; rfl) hInv
      cases hdid : r0.driver_id with
      | none => exact hInv1
      | some did =>
        show CoreInv ((update_driver_rating
          (s.setRide rid fun r => { r with rating := some v }) did v, true).1)
        unfold update_driver_rating
        cases hfd : (s.setRide rid
            (fun r => { r with rating := some v })).findDriver did with
        | none => exact hInv1
        | some d1 =>
          exact coreInv_setDriver_benign _ did _ (by intro x; rfl)
            (by intro x; rfl) hInv1
    · have heq : add_ride_rating s rid v = (s, false) := by
        unfold add_ride_rating
        rw [hfr]
        dsimp only
        rw [if_neg hst]
      rw [heq]
      exact hInv

theorem inv_step (s : DB) (op : Op) (hInv : CoreInv s)
    (hd : disciplined s op = true) : CoreInv (step s op) := by
  cases op with
  | createDriver u n vt lat lng => exact inv_create_driver s u n vt lat lng hInv
  | setAvailability u b =>
    apply inv_set_driver_availability s u b hInv
    intro hb
    subst hb
    unfold disciplined at hd
    simpa using hd
  | createRide u lat lng => exact inv_create_ride s u lat lng hInv
  | assignDriver rid did dist => exact inv_assign s rid did dist hInv
  | transition rid st now =>
    unfold disciplined at hd
    rw [Bool.and_eq_true] at hd
    apply inv_update_ride_status s rid st now hInv
    · have h3 := hd.1
      simp only [Bool.or_eq_true, beq_iff_eq] at h3
      tauto
    · intro r hr
      have h2 := hd.2
      rw [hr] at h2
      simpa using h2
  | rateRide rid v => exact inv_add_ride_rating s rid v hInv
  | decline did =>
    exfalso
    unfold disciplined at hd
    exact absurd hd (by simp)

theorem inv_run : ∀ (ops : List Op) (s : DB), CoreInv s →
    disciplinedRun s ops = true → CoreInv (run s ops) := by
  intro ops
  induction ops with
  | nil =>
    intro s h _
    exact h
  | cons op ops ih =>
    intro s hInv hd
    unfold disciplinedRun at hd
    rw [Bool.and_eq_true] at hd
    exact ih (step s op) (inv_step s op hInv hd.1) hd.2

theorem assign_fail_of_not_requested (s : DB) (rid did : Nat) (dist : ℚ) (r : Ride)
    (hr : s.findRide rid = some r) (hst : r.status ≠ .requested) :
    (assign_driver_to_ride s rid did dist).2 = false := by
  unfold assign_driver_to_ride
  cases hq : s.drivers.find? (fun d => d.id == did && d.available) with
  | none => rfl
  | some d0 =>
    dsimp only
    rw [hr]
    dsimp only
    rw [if_neg hst]

theorem assign_success_findRide (s : DB) (rid did : Nat) (dist : ℚ)
    (hsucc : (assign_driver_to_ride s rid did dist).2 = true) :
    ∃ r', (assign_driver_to_ride s rid did dist).1.findRide rid = some r' ∧
      r'.status = .assigned := by
  unfold assign_driver_to_ride at hsucc ⊢
  cases hq : s.drivers.find? (fun d => d.id == did && d.available) with
  | none =>
    rw [hq] at hsucc
    exact absurd hsucc (by simp)
  | some d0 =>
    rw [hq] at hsucc
    dsimp only at hsucc ⊢
    cases hfr : s.findRide rid with
    | none =>
      rw [hfr] at hsucc
      exact absurd hsucc (by simp)
    | some r0 =>
      rw [hfr] at hsucc
      dsimp only at hsucc ⊢
      by_cases hst : r0.status = .requested
      · rw [if_pos hst]
        have hfound : ((s.setRide rid fun r =>
            { r with driver_id := some did, distance := some dist,
                     status := RideStatus.assigned }).setDriver did
              (fun d => { d with available := false })).findRide rid =
            some { r0 with driver_id := some did, distance := some dist,
                           status := RideStatus.assigned } := by
          rw [findRide_setDriver, findRide_setRide_self _ _ _ (by intro x; rfl), hfr]
          rfl
        exact ⟨_, hfound, rfl⟩
      · rw [if_neg hst] at hsucc
        exact absurd hsucc (by simp)

theorem nonrequested_preserved (s : DB) (op : Op) (hdop : disciplined s op = true)
    (rid : Nat) (r : Ride) (hr : s.findRide rid = some r)
    (hst : r.status ≠ .requested) :
    ∃ r', (step s op).findRide rid = some r' ∧ r'.status ≠ .requested := by
  cases op with
  | createDriver u n vt lat lng =>
    refine ⟨r, ?_, hst⟩
    show (create_driver s u n vt lat lng).findRide rid = some r
    unfold create_driver
    cases s.findDriver u with
    | some d => exact hr
    | none => exact hr
  | setAvailability u b =>
    refine ⟨r, ?_, hst⟩
    show ((set_driver_availability s u b).1).findRide rid = some r
    unfold set_driver_availability
    cases s.findDriver u with
    | none => exact hr
    | some d => exact hr
  | decline u =>
    refine ⟨r, ?_, hst⟩
    show ((set_driver_availability s u true).1).findRide rid = some r
    unfold set_driver_availability
    cases s.findDriver u with
    | none => exact hr
    | some d => exact hr
  | createRide u lat lng =>
    refine ⟨r, ?_, hst⟩
    show ((create_ride s u lat lng).1).findRide rid = some r
    unfold create_ride DB.findRide
    dsimp only
    rw [List.find?_append]
    unfold DB.findRide at hr
    rw [hr]
    rfl
  | assignDriver rid' did dist =>
    show ∃ r', ((assign_driver_to_ride s rid' did dist).1).findRide rid = some r' ∧
      r'.status ≠ RideStatus.requested
    unfold assign_driver_to_ride
    cases hq : s.drivers.find? (fun d => d.id == did && d.available) with
    | none => exact ⟨r, hr, hst⟩
    | some d0 =>
      dsimp only
      cases hfr' : s.findRide rid' with
      | none => exact ⟨r, hr, hst⟩
      | some r1 =>
        dsimp only
        by_cases hst1 : r1.status = .requested
        · rw [if_pos hst1]
          by_cases heqr : rid' = rid
          · exfalso
            rw [heqr] at hfr'
            rw [hr] at hfr'
            have h := Option.some_inj.mp hfr'
            apply hst
            rw [h]
            exact hst1
          · refine ⟨r, ?_, hst⟩
            show ((s.setRide rid' fun r0 =>
                { r0 with driver_id := some did, distance := some dist,
                          status := RideStatus.assigned }).setDriver did
                  (fun d => { d with available := false })).findRide rid = some r
            rw [findRide_setDriver,
                findRide_setRide_ne _ _ _ _ (by intro x; rfl) (fun h => heqr h.symm)]
            exact hr
        · rw [if_neg hst1]
          exact ⟨r, hr, hst⟩
  | transition rid' st now =>
    unfold disciplined at hdop
    rw [Bool.and_eq_true] at hdop
    have h3 := hdop.1
    simp only [Bool.or_eq_true, beq_iff_eq] at h3
    show ∃ r', ((update_ride_status s rid' st now).1).findRide rid = some r' ∧
      r'.status ≠ RideStatus.requested
    have hstreq : st ≠ RideStatus.requested := by
      intro hc
      subst hc
      rcases h3 with (h | h) | h <;> cases h
    cases hfr' : s.findRide rid' with
    | none =>
      have heq : update_ride_status s rid' st now = (s, false) := by
        unfold update_ride_status
        rw [hfr']
      rw [heq]
      exact ⟨r, hr, hst⟩
    | some r1 =>
      have heq := update_ride_status_eq_of_found s rid' st now r1 hfr'
      rw [heq]
      dsimp only
      by_cases hterm : st = .completed ∨ st = .cancelled
      · rw [if_pos hterm]
        rw [setRide_setRide _ _ _ _ (by intro x; rfl)]
        by_cases heqr : rid' = rid
        · subst heqr
          cases hdid : r1.driver_id with
          | none =>
            have hfound : (s.setRide rid' fun r0 =>
                { r0 with status := st, completed_at := some now }).findRide rid' =
                some { r1 with status := st, completed_at := some now } := by
              rw [findRide_setRide_self _ _ _ (by intro x; rfl), hfr']
              rfl
            exact ⟨_, hfound, hstreq⟩
          | some did =>
            have hfound : ((s.setRide rid' fun r0 =>
                { r0 with status := st, completed_at := some now }).setDriver did
                  (fun d => { d with available := true })).findRide rid' =
                some { r1 with status := st, completed_at := some now } := by
              rw [findRide_setDriver,
                  findRide_setRide_self _ _ _ (by intro x; rfl), hfr']
              rfl
            exact ⟨_, hfound, hstreq⟩
        · cases hdid : r1.driver_id with
          | none =>
            refine ⟨r, ?_, hst⟩
            show (s.setRide rid' fun r0 =>
                { r0 with status := st, completed_at := some now }).findRide rid = some r
            rw [findRide_setRide_ne _ _ _ _ (by intro x; rfl) (fun h => heqr h.symm)]
            exact hr
          | some did =>
            refine ⟨r, ?_, hst⟩
            show ((s.setRide rid' fun r0 =>
                { r0 with status := st, completed_at := some now }).setDriver did
                  (fun d => { d with available := true })).findRide rid = some r
            rw [findRide_setDriver,
                findRide_setRide_ne _ _ _ _ (by intro x; rfl) (fun h => heqr h.symm)]
            exact hr
      · rw [if_neg hterm]
        by_cases heqr : rid' = rid
        · subst heqr
          have hfound : (s.setRide rid' fun r0 => { r0 with status := st }).findRide rid' =
              some { r1 with status := st } := by
            rw [findRide_setRide_self _ _ _ (by intro x; rfl), hfr']
            rfl
          exact ⟨_, hfound, hstreq⟩
        · refine ⟨r, ?_, hst⟩
          show (s.setRide rid' fun r0 => { r0 with status := st }).findRide rid = some r
          rw [findRide_setRide_ne _ _ _ _ (by intro x; rfl) (fun h => heqr h.symm)]
          exact hr
  | rateRide rid' v =>
    show ∃ r', ((add_ride_rating s rid' v).1).findRide rid = some r' ∧
      r'.status ≠ RideStatus.requested
    cases hfr' : s.findRide rid' with
    | none =>
      have heq : add_ride_rating s rid' v = (s, false) := by
        unfold add_ride_rating
        rw [hfr']
      rw [heq]
      exact ⟨r, hr, hst⟩
    | some r1 =>
      by_cases hstc : r1.status = .completed
      · rw [add_ride_rating_found_completed s rid' v r1 hfr' hstc]
        by_cases heqr : rid' = rid
        · subst heqr
          have hr1r : r1 = r := by
            rw [hfr'] at hr
            exact Option.some_inj.mp hr
          cases hdid : r1.driver_id with
          | none =>
            have hfound : (s.setRide rid' fun r0 => { r0 with rating := some v }).findRide rid' =
                some { r1 with rating := some v } := by
              rw [findRide_setRide_self _ _ _ (by intro x; rfl), hfr']
              rfl
            refine ⟨_, hfound, ?_⟩
            intro hc
            apply hst
            rw [← hr1r]
            exact hc
          | some did =>
            have hfound : (update_driver_rating
                (s.setRide rid' fun r0 => { r0 with rating := some v }) did v).findRide rid' =
                some { r1 with rating := some v } := by
              rw [findRide_update_driver_rating,
                  findRide_setRide_self _ _ _ (by intro x; rfl), hfr']
              rfl
            refine ⟨_, hfound, ?_⟩
            intro hc
            apply hst
            rw [← hr1r]
            exact hc
        · cases hdid : r1.driver_id with
          | none =>
            refine ⟨r, ?_, hst⟩
            show (s.setRide rid' fun r0 => { r0 with rating := some v }).findRide rid = some r
            rw [findRide_setRide_ne _ _ _ _ (by intro x; rfl) (fun h => heqr h.symm)]
            exact hr
          | some did =>
            refine ⟨r, ?_, hst⟩
            show (update_driver_rating
                (s.setRide rid' fun r0 => { r0 with rating := some v }) did v).findRide rid = some r
            rw [findRide_update_driver_rating,
                findRide_setRide_ne _ _ _ _ (by intro x; rfl) (fun h => heqr h.symm)]
            exact hr
      · have heq : add_ride_rating s rid' v = (s, false) := by
          unfold add_ride_rating
          rw [hfr']
          dsimp only
          rw [if_neg hstc]
        rw [heq]
        exact ⟨r, hr, hst⟩

theorem assignSuccesses_bound : ∀ (ops : List Op) (s : DB),
    disciplinedRun s ops = true → ∀ rid,
    assignSuccesses s ops rid ≤ 1 ∧
    (∀ r, s.findRide rid = some r → r.status ≠ .requested →
      assignSuccesses s ops rid = 0) := by
  intro ops
  induction ops with
  | nil =>
    intro s _ rid
    exact ⟨Nat.zero_le 1, fun _ _ _ => rfl⟩
  | cons op ops ih =>
    intro s hdr rid
    unfold disciplinedRun at hdr
    rw [Bool.and_eq_true] at hdr
    obtain ⟨hd1, hd2⟩ := hdr
    have hih := ih (step s op) hd2
    constructor
    · cases op with
      | assignDriver rid' did dist =>
        show (if rid' = rid ∧ (assign_driver_to_ride s rid' did dist).2 = true
              then 1 else 0) +
          assignSuccesses (step s (Op.assignDriver rid' did dist)) ops rid ≤ 1
        by_cases hc : rid' = rid ∧ (assign_driver_to_ride s rid' did dist).2 = true
        · rw [if_pos hc]
          obtain ⟨heq, hsucc⟩ := hc
          obtain ⟨r', hfind', hst'⟩ := assign_success_findRide s rid' did dist hsucc
          have hfind2 : (step s (Op.assignDriver rid' did dist)).findRide rid = some r' := by
            rw [← heq]
            exact hfind'
          have hzero := (hih rid).2 r' hfind2 (by rw [hst']; intro hcon; cases hcon)
          omega
        · rw [if_neg hc]
          have := (hih rid).1
          omega
      | createDriver u n vt lat lng =>
        show 0 + assignSuccesses (step s (Op.createDriver u n vt lat lng)) ops rid ≤ 1
        rw [Nat.zero_add]
        exact (hih rid).1
      | setAvailability u b =>
        show 0 + assignSuccesses (step s (Op.setAvailability u b)) ops rid ≤ 1
        rw [Nat.zero_add]
        exact (hih rid).1
      | createRide u lat lng =>
        show 0 + assignSuccesses (step s (Op.createRide u lat lng)) ops rid ≤ 1
        rw [Nat.zero_add]
        exact (hih rid).1
      | transition rid2 st2 now2 =>
        show 0 + assignSuccesses (step s (Op.transition rid2 st2 now2)) ops rid ≤ 1
        rw [Nat.zero_add]
        exact (hih rid).1
      | rateRide rid2 v =>
        show 0 + assignSuccesses (step s (Op.rateRide rid2 v)) ops rid ≤ 1
        rw [Nat.zero_add]
        exact (hih rid).1
      | decline u =>
        show 0 + assignSuccesses (step s (Op.decline u)) ops rid ≤ 1
        rw [Nat.zero_add]
        exact (hih rid).1
    · intro r hr hst
      obtain ⟨r', hfind', hst'⟩ := nonrequested_preserved s op hd1 rid r hr hst
      have hzero := (hih rid).2 r' hfind' hst'
      cases op with
      | assignDriver rid' did dist =>
        show (if rid' = rid ∧ (assign_driver_to_ride s rid' did dist).2 = true
              then 1 else 0) +
          assignSuccesses (step s (Op.assignDriver rid' did dist)) ops rid = 0
        have hcond : ¬ (rid' = rid ∧ (assign_driver_to_ride s rid' did dist).2 = true) := by
          intro hc
          obtain ⟨h1, h2⟩ := hc
          rw [h1] at h2
          have hfail := assign_fail_of_not_requested s rid did dist r hr hst
          rw [hfail] at h2
          exact Bool.noConfusion h2
        rw [if_neg hcond, hzero]
      | createDriver u n vt lat lng =>
        show 0 + assignSuccesses (step s (Op.createDriver u n vt lat lng)) ops rid = 0
        rw [hzero]
      | setAvailability u b =>
        show 0 + assignSuccesses (step s (Op.setAvailability u b)) ops rid = 0
        rw [hzero]
      | createRide u lat lng =>
        show 0 + assignSuccesses (step s (Op.createRide u lat lng)) ops rid = 0
        rw [hzero]
      | transition rid2 st2 now2 =>
        show 0 + assignSuccesses (step s (Op.transition rid2 st2 now2)) ops rid = 0
        rw [hzero]
      | rateRide rid2 v =>
        show 0 + assignSuccesses (step s (Op.rateRide rid2 v)) ops rid = 0
        rw [hzero]
      | decline u =>
        show 0 + assignSuccesses (step s (Op.decline u)) ops rid = 0
        rw [hzero]

/-! ### C2 and C3: the unguarded decline path versus the core invariants -/

/-- A trace exercising the unguarded decline path of `decline_ride_callback`
(`src/handlers/driver.py`): driver 1 is assigned ride 1, declines — which
only calls `set_driver_availability(user_id, True)`, leaving ride 1 in
ASSIGNED — and is then successfully assigned the simultaneously active
ride 2. -/
def declineOps : List Op :=
  [Op.createDriver 1 "a" VehicleType.car 0 0,
   Op.setAvailability 1 true,
   Op.createRide 7 0 0,
   Op.assignDriver 1 1 2,
   Op.decline 1,
   Op.createRide 8 0 0,
   Op.assignDriver 2 1 2]

/-- C2 counterexample: after the decline trace, driver 1 is the attached
driver of the two simultaneously non-terminal rides 1 and 2, so the claimed
invariant fails over the full operation set (which includes driver decline). -/
theorem noDoubleBooking_counterexample :
    ¬ noDoubleBooking (run DB.empty declineOps) := by
  unfold noDoubleBooking
  decide

/-- The trace used by the C3 counterexample: the prefix of the decline trace
up to and including the decline itself. -/
def declineShortOps : List Op :=
  [Op.createDriver 1 "a" VehicleType.car 0 0,
   Op.setAvailability 1 true,
   Op.createRide 7 0 0,
   Op.assignDriver 1 1 2,
   Op.decline 1]

/-- C3 counterexample: right after the decline, ride 1 is still ASSIGNED to
driver 1 yet driver 1 has available = true, so the availability invariant is
not preserved by every operation. -/
theorem busyDriverUnavailable_counterexample :
    ¬ busyDriverUnavailable (run DB.empty declineShortOps) := by
  unfold busyDriverUnavailable
  decide

/-- C2 (amended): over every operation sequence in which availability is only
switched on for a driver holding no non-terminal ride (the guard the
`go_available` handler enforces, which the decline path bypasses) and
transitions only move a still-active ride to ONGOING, COMPLETED or CANCELLED,
each ride receives at most one successful assignment over its whole life and
no driver is attached to two simultaneously non-terminal rides. -/
theorem assignment_core_guarantee (ops : List Op)
    (h : disciplinedRun DB.empty ops = true) :
    (∀ rid, assignSuccesses DB.empty ops rid ≤ 1) ∧
    noDoubleBooking (run DB.empty ops) := by
  have hinv := inv_run ops DB.empty inv_empty h
  constructor
  · intro rid
    exact (assignSuccesses_bound ops DB.empty h rid).1
  · intro r1 h1 r2 h2 ha1 ha2 hne
    by_cases hd1 : r1.driver_id = none
    · exact Or.inl hd1
    · refine Or.inr ?_
      intro heq
      obtain ⟨d, hd⟩ := Option.ne_none_iff_exists'.mp hd1
      have hd2 : r2.driver_id = some d := by
        rw [← heq]
        exact hd
      exact hne (hinv.uniqueActive r1 h1 r2 h2 ha1 ha2 d hd hd2)

/-- A disciplined trace used to witness the amended C2: a ride is created,
assigned, started and completed. -/
def disciplinedDemoOps : List Op :=
  [Op.createDriver 1 "a" VehicleType.car 0 0,
   Op.setAvailability 1 true,
   Op.createRide 7 0 0,
   Op.assignDriver 1 1 2,
   Op.transition 1 RideStatus.ongoing 0,
   Op.transition 1 RideStatus.completed 5]

theorem assignment_core_guarantee_witness :
    disciplinedRun DB.empty disciplinedDemoOps = true ∧
    assignSuccesses DB.empty disciplinedDemoOps 1 ≤ 1 ∧
    noDoubleBooking (run DB.empty disciplinedDemoOps) :=
  ⟨by decide,
   (assignment_core_guarantee disciplinedDemoOps (by decide)).1 1,
   (assignment_core_guarantee disciplinedDemoOps (by decide)).2⟩

/-- C3 (amended): the driver-availability invariant — any driver attached to
an ASSIGNED or ONGOING ride has available = false — holds in every state
reached from the empty store by a sequence of operations in which
availability is only switched on for a driver holding no non-terminal ride
(the `go_available` guard, bypassed by the decline path) and transitions only
move a still-active ride to ONGOING, COMPLETED or CANCELLED. -/
theorem busy_driver_unavailable_of_disciplined (ops : List Op)
    (h : disciplinedRun DB.empty ops = true) :
    busyDriverUnavailable (run DB.empty ops) := by
  have hinv := inv_run ops DB.empty inv_empty h
  intro r hr hst d hd hdid
  have hact : r.status.isActive = true := by
    rcases hst with h1 | h1 <;> rw [h1] <;> rfl
  obtain ⟨drv, hfind, hunav⟩ := hinv.busyUnavail r hr hact d.id hdid
  have hmem : (run DB.empty ops).drivers.find? (fun a => a.id == d.id) = some d :=
    find?_eq_of_mem_of_nodup_keys (fun a => a.id) _ hinv.driversNodup d hd d.id rfl
  have hdd : drv = d := by
    have : some drv = some d := by
      rw [← hfind]
      exact hmem
    exact Option.some_inj.mp this
  rw [← hdd]
  exact hunav

/-- A disciplined trace used to witness the amended C3: after a successful
assignment the attached driver is unavailable. -/
def disciplinedBusyOps : List Op :=
  [Op.createDriver 1 "a" VehicleType.car 0 0,
   Op.setAvailability 1 true,
   Op.createRide 7 0 0,
   Op.assignDriver 1 1 2]

theorem busy_driver_unavailable_of_disciplined_witness :
    disciplinedRun DB.empty disciplinedBusyOps = true ∧
    busyDriverUnavailable (run DB.empty disciplinedBusyOps) :=
  ⟨by decide,
   busy_driver_unavailable_of_disciplined disciplinedBusyOps (by decide)⟩
